import Mathlib

/-!
Shallow embedding of the import script `scripts/optim2sqlite.py`.

The script reads a minima summary file (`min.data`) together with a minima
coordinate file (`extractedmin`), builds one `Minimum` record per summary
line, stages each record in the database session, records it in an in-memory
index keyed by a 1-based counter, and commits.  It then reads a
transition-state summary file (`ts.data`) together with a second coordinate
file (`extractedts`), builds one `TransitionState` record per line (resolving
the two endpoint ordinals through the index), stages each record, and commits
again.

Modelling conventions:
  * an input line is represented by its whitespace-split token list (every
    use of a line in the script immediately calls `line.split()`);
  * Python `float()` / `int()` are modelled by `pyFloat?` / `pyInt?` on the
    decimal fragment the data files exercise (optional sign, digits, one
    optional decimal point; exponent forms are not modelled), with values
    in `ℚ`;
  * a Python exception is an explicit error value; since the exception
    aborts the run but side effects performed before it persist, the driver
    returns the state reached at the moment of failure together with the
    optional error;
  * the numpy slice assignment `coords[i*3:i*3+3] = vals` succeeds when
    `vals` has length 3, broadcasts when it has length 1, and raises a
    `ValueError` otherwise; `file.readline()` at end of file returns an
    empty string, whose split is the empty token list.
-/

/-- A line of an input file, given by its whitespace-split tokens. -/
abbrev Line := List String

/-- Numeric value of a digit list, most significant digit first. -/
def digitsVal (cs : List Char) : ℕ :=
  cs.foldl (fun a c => 10 * a + (c.toNat - 48)) 0

/-- Unsigned part of Python `int()`: at least one digit, digits only. -/
def pyIntCore (cs : List Char) : Option ℤ :=
  if cs = [] || !cs.all Char.isDigit then none else some (digitsVal cs)

/-- Model of Python `int()` on decimal literals: optional sign followed by
at least one digit. -/
def pyInt? (s : String) : Option ℤ :=
  match s.toList with
  | '-' :: rest => (pyIntCore rest).map (fun v => -v)
  | '+' :: rest => pyIntCore rest
  | cs => pyIntCore cs

/-- Splits a character list at the first dot, if any. -/
def splitAtDot : List Char → List Char × Option (List Char)
  | [] => ([], none)
  | c :: cs =>
      if c = '.' then ([], some cs)
      else
        let r := splitAtDot cs
        (c :: r.1, r.2)

/-- Unsigned part of Python `float()` on the decimal fragment the data
files use: digits with at most one decimal point, at least one digit. -/
def pyFloatMag (cs : List Char) : Option ℚ :=
  match splitAtDot cs with
  | (ip, none) =>
      if ip = [] || !ip.all Char.isDigit then none
      else some (digitsVal ip : ℚ)
  | (ip, some fp) =>
      if (ip = [] && fp = []) || !ip.all Char.isDigit || !fp.all Char.isDigit
      then none
      else some ((digitsVal ip : ℚ) + (digitsVal fp : ℚ) / (10 : ℚ) ^ fp.length)

/-- Model of Python `float()` on the decimal fragment the data files use
(exponent forms are not modelled): optional sign, then digits with at most
one decimal point. -/
def pyFloat? (s : String) : Option ℚ :=
  match s.toList with
  | '-' :: rest => (pyFloatMag rest).map (fun m => -m)
  | '+' :: rest => pyFloatMag rest
  | cs => pyFloatMag cs

/-- Modelled from the spec: `pygmin.storage.database.Minimum` (the class is
imported by the script, not defined in it) is a record of an energy and a
coordinate vector. -/
structure Minimum where
  energy : ℚ
  coords : List ℚ
deriving Repr, DecidableEq, Inhabited

/-- Modelled from the spec: `pygmin.storage.database.TransitionState` is a
record of an energy, a coordinate vector, and references to the two minima
it connects. -/
structure TransitionState where
  energy : ℚ
  coords : List ℚ
  min1 : Minimum
  min2 : Minimum
deriving Repr, DecidableEq, Inhabited

/-- Python exceptions the script can raise, by raise site. -/
inductive PyErr where
  /-- numpy `ValueError`: the value list read from line `pos` has `found`
  elements, which does not broadcast into a slice of length 3. -/
  | broadcastMismatch (pos : ℕ) (found : ℕ)
  /-- `ValueError` from `float(tok)`. -/
  | floatError (tok : String)
  /-- `ValueError` from `int(tok)`. -/
  | intError (tok : String)
  /-- `ValueError` from tuple unpacking: the line has `found` fields where
  `expected` were required. -/
  | unpackError (found : ℕ) (expected : ℕ)
  /-- `KeyError` (a Python `LookupError`) from `minima[k]`. -/
  | keyError (k : ℤ)
deriving Repr, DecidableEq

/-- Modelled from the spec: observable persistence-sink events.
`db.session.add` stages an entity, `db.session.commit` makes the staged
entities durable; building a transition state resolves its endpoints. -/
inductive Event where
  | stageMin (m : Minimum)
  | buildTs (t : TransitionState)
  | stageTs (t : TransitionState)
  | commit
deriving Repr, DecidableEq

/-- State threaded through the script: position in the open coordinate file,
the running counter `mini`, the index `minima`, the entities staged by
`db.session.add` (minima and transition states separately), and the event
trace. -/
structure RunState where
  coordPos : ℕ
  mini : ℤ
  minima : List (ℤ × Minimum)
  stagedMin : List Minimum
  stagedTs : List TransitionState
  trace : List Event
deriving Repr, DecidableEq

/-- The atom count hard-wired in the script (`natoms = 38`). -/
def natoms : ℕ := 38

/-- Python `[float(y) for y in x]`: converts tokens left to right, raising
on the first token `float()` rejects. -/
def floatList : List String → Except PyErr (List ℚ)
  | [] => .ok []
  | t :: ts =>
      match pyFloat? t with
      | none => .error (.floatError t)
      | some v => (floatList ts).map (fun vs => v :: vs)

/-- numpy assignment `coords[i*3:i*3+3] = vals`: a length-3 list is stored,
a length-1 list is broadcast to the three slots, anything else raises. -/
def broadcast3 (pos : ℕ) (vals : List ℚ) : Except PyErr (List ℚ) :=
  match vals with
  | [v] => .ok [v, v, v]
  | [a, b, c] => .ok [a, b, c]
  | _ => .error (.broadcastMismatch pos vals.length)

/-- Tokens of `file.readline().split()` at position `pos`: past the end of
the file `readline` returns the empty string, which splits to `[]`. -/
def readLine (lines : List Line) (pos : ℕ) : Line :=
  lines.getD pos []

/-- Body of `read_coords`: reads `n` lines starting at `pos`, converting and
slice-assigning each. -/
def read_coordsAux (lines : List Line) : ℕ → ℕ → Except PyErr (List ℚ)
  | _, 0 => .ok []
  | pos, n + 1 =>
      match floatList (readLine lines pos) with
      | .error e => .error e
      | .ok vals =>
          match broadcast3 pos vals with
          | .error e => .error e
          | .ok triple =>
              match read_coordsAux lines (pos + 1) n with
              | .error e => .error e
              | .ok rest => .ok (triple ++ rest)

/-- `read_coords(file)`: reads `natoms` lines from the current position and
returns the flat coordinate vector together with the new file position. -/
def read_coords (nat : ℕ) (lines : List Line) (pos : ℕ) :
    Except PyErr (List ℚ × ℕ) :=
  (read_coordsAux lines pos nat).map (fun cs => (cs, pos + nat))

/-- Lines 33–34 of the script: unpack
`energy, frequency, pgorder, itx, ity, itz = line.split()` (raising on a
field count other than 6) and then convert `float(energy)`; the other five
fields are bound but never converted. -/
def parseMinLine (line : Line) : Except PyErr ℚ :=
  match line with
  | [energy, _frequency, _pgorder, _itx, _ity, _itz] =>
      match pyFloat? energy with
      | none => .error (.floatError energy)
      | some v => .ok v
  | _ => .error (.unpackError line.length 6)

/-- Python dict lookup `minima[k]`: raises `KeyError` when absent. -/
def dictLookup (m : List (ℤ × Minimum)) (k : ℤ) : Except PyErr Minimum :=
  match m.lookup k with
  | some v => .ok v
  | none => .error (.keyError k)

/-- Lines 51–52 of the script: unpack the 8 fields of a transition-state
line and evaluate `TransitionState(float(energy), coords, minima[int(min1)],
minima[int(min2)])`, whose arguments Python evaluates left to right. -/
def buildTransitionState (m : List (ℤ × Minimum)) (cs : List ℚ) (line : Line) :
    Except PyErr TransitionState :=
  match line with
  | [energy, _frequency, _pgorder, min1s, min2s, _itx, _ity, _itz] =>
      match pyFloat? energy with
      | none => .error (.floatError energy)
      | some e =>
          match pyInt? min1s with
          | none => .error (.intError min1s)
          | some k1 =>
              match dictLookup m k1 with
              | .error err => .error err
              | .ok mn1 =>
                  match pyInt? min2s with
                  | none => .error (.intError min2s)
                  | some k2 =>
                      match dictLookup m k2 with
                      | .error err => .error err
                      | .ok mn2 => .ok ⟨e, cs, mn1, mn2⟩
  | _ => .error (.unpackError line.length 8)

/-- One iteration of the minima loop (lines 31–37): read a coordinate block,
parse the line, build the `Minimum`, stage it, record it in the index, and
advance the counter.  On an exception the state reached so far is returned
with the error. -/
def minStep (nat : ℕ) (coordLines : List Line) (s : RunState) (line : Line) :
    RunState × Option PyErr :=
  match read_coords nat coordLines s.coordPos with
  | .error e => (s, some e)
  | .ok (cs, pos) =>
      match parseMinLine line with
      | .error e => (s, some e)
      | .ok energy =>
          let m : Minimum := ⟨energy, cs⟩
          ({ s with
              coordPos := pos
              mini := s.mini + 1
              minima := s.minima ++ [(s.mini, m)]
              stagedMin := s.stagedMin ++ [m]
              trace := s.trace ++ [.stageMin m] }, none)

/-- One iteration of the transition-state loop (lines 49–53): read a
coordinate block, build the `TransitionState` (resolving both endpoints
through the index), and stage it. -/
def tsStep (nat : ℕ) (coordLines : List Line) (s : RunState) (line : Line) :
    RunState × Option PyErr :=
  match read_coords nat coordLines s.coordPos with
  | .error e => (s, some e)
  | .ok (cs, pos) =>
      match buildTransitionState s.minima cs line with
      | .error e => (s, some e)
      | .ok t =>
          ({ s with
              coordPos := pos
              stagedTs := s.stagedTs ++ [t]
              trace := s.trace ++ [.buildTs t, .stageTs t] }, none)

/-- Runs the loop body over the summary lines, stopping at the first
exception and returning the state reached at that moment. -/
def foldSteps {σ α : Type} (f : σ → α → σ × Option PyErr) :
    σ → List α → σ × Option PyErr
  | s, [] => (s, none)
  | s, x :: xs =>
      match f s x with
      | (s', none) => foldSteps f s' xs
      | (s', some e) => (s', some e)

/-- The whole script, parameterised by the atom count and the four input
files: the minima loop, a commit, reopening the coordinate file for the
transition-state phase (position resets to 0), the transition-state loop,
and a final commit. -/
def runScript (nat : ℕ) (minData minCoords tsData tsCoords : List Line) :
    RunState × Option PyErr :=
  let s0 : RunState := ⟨0, 1, [], [], [], []⟩
  match foldSteps (minStep nat minCoords) s0 minData with
  | (s1, some e) => (s1, some e)
  | (s1, none) =>
      let s2 := { s1 with trace := s1.trace ++ [Event.commit] }
      let s3 := { s2 with coordPos := 0 }
      match foldSteps (tsStep nat tsCoords) s3 tsData with
      | (s4, some e) => (s4, some e)
      | (s4, none) => ({ s4 with trace := s4.trace ++ [Event.commit] }, none)

/-- The script as shipped, with its hard-wired atom count of 38. -/
def runScript38 (minData minCoords tsData tsCoords : List Line) :
    RunState × Option PyErr :=
  runScript natoms minData minCoords tsData tsCoords

/-! ### Validity predicates for the theorem statements -/

/-- Token accepted by `float()`. -/
def isNumTok (t : String) : Bool := (pyFloat? t).isSome

/-- Coordinate line of the shape the file format prescribes: exactly three
numeric tokens. -/
def goodCoordLine (l : Line) : Bool := l.length == 3 && l.all isNumTok

/-- Well-formed minima summary line: six fields whose first field `float()`
accepts. -/
def validMinLine (l : Line) : Bool := l.length == 6 && isNumTok (l.headD "")

/-- Well-formed transition-state summary line for a run with `n` minima:
eight fields, numeric energy, and both ordinal fields parsing to integers
in the range `1..n`. -/
def validTsLine (n : ℕ) (l : Line) : Bool :=
  l.length == 8 && isNumTok (l.headD "") &&
  (match pyInt? (l.getD 3 "") with
   | some k => decide (1 ≤ k) && decide (k ≤ (n : ℤ))
   | none => false) &&
  (match pyInt? (l.getD 4 "") with
   | some k => decide (1 ≤ k) && decide (k ≤ (n : ℤ))
   | none => false)

/-- The index the first phase builds from consecutive keys: `idxFrom k ms`
maps `k` to the first element of `ms`, `k+1` to the second, and so on. -/
def idxFrom (k : ℤ) : List Minimum → List (ℤ × Minimum)
  | [] => []
  | m :: ms => (k, m) :: idxFrom (k + 1) ms

/-- An error of `read_coords` witnessing that the coordinate stream of
length `len` was exhausted: the failing read happened at a position at or
past the end of the stream, where `readline` returns the empty string. -/
def streamExhaustedAt (len : ℕ) : PyErr → Prop
  | .broadcastMismatch pos found => len ≤ pos ∧ found = 0
  | _ => False

/-! ### Helper lemmas -/

theorem lookup_mem {β : Type} (l : List (ℤ × β)) (k : ℤ) (v : β)
    (h : l.lookup k = some v) : (k, v) ∈ l := by
  induction l with
  | nil => simp [List.lookup] at h
  | cons p l ih =>
      match p with
      | (k', v') =>
          cases hk : k == k' with
          | true =>
              simp only [List.lookup, hk] at h
              have hkk : k = k' := beq_iff_eq.mp hk
              cases h
              subst hkk
              exact List.mem_cons_self _ _
          | false =>
              simp only [List.lookup, hk] at h
              exact List.mem_cons_of_mem _ (ih h)

theorem destruct_three {α : Type} (l : List α) (h : l.length = 3) :
    ∃ a b c, l = [a, b, c] := by
  obtain ⟨a, l, rfl⟩ := List.exists_of_length_succ l h
  simp only [List.length_cons, Nat.succ_inj] at h
  obtain ⟨b, l, rfl⟩ := List.exists_of_length_succ l h
  simp only [List.length_cons, Nat.succ_inj] at h
  obtain ⟨c, l, rfl⟩ := List.exists_of_length_succ l h
  simp only [List.length_cons, Nat.succ_inj] at h
  rw [List.length_eq_zero] at h
  subst h
  exact ⟨a, b, c, rfl⟩

theorem destruct_six {α : Type} (l : List α) (h : l.length = 6) :
    ∃ a b c d e f, l = [a, b, c, d, e, f] := by
  obtain ⟨a, l, rfl⟩ := List.exists_of_length_succ l h
  simp only [List.length_cons, Nat.succ_inj] at h
  obtain ⟨b, l, rfl⟩ := List.exists_of_length_succ l h
  simp only [List.length_cons, Nat.succ_inj] at h
  obtain ⟨c, l, rfl⟩ := List.exists_of_length_succ l h
  simp only [List.length_cons, Nat.succ_inj] at h
  obtain ⟨d, l, rfl⟩ := List.exists_of_length_succ l h
  simp only [List.length_cons, Nat.succ_inj] at h
  obtain ⟨e, l, rfl⟩ := List.exists_of_length_succ l h
  simp only [List.length_cons, Nat.succ_inj] at h
  obtain ⟨f, l, rfl⟩ := List.exists_of_length_succ l h
  simp only [List.length_cons, Nat.succ_inj] at h
  rw [List.length_eq_zero] at h
  subst h
  exact ⟨a, b, c, d, e, f, rfl⟩

theorem destruct_eight {α : Type} (l : List α) (h : l.length = 8) :
    ∃ a b c d e f g k, l = [a, b, c, d, e, f, g, k] := by
  obtain ⟨a, l, rfl⟩ := List.exists_of_length_succ l h
  simp only [List.length_cons, Nat.succ_inj] at h
  obtain ⟨b, l, rfl⟩ := List.exists_of_length_succ l h
  simp only [List.length_cons, Nat.succ_inj] at h
  obtain ⟨c, d, e, f, g, k, rfl⟩ := destruct_six l h
  exact ⟨a, b, c, d, e, f, g, k, rfl⟩

theorem floatList_ok (l : List String) (h : ∀ t ∈ l, isNumTok t = true) :
    ∃ vs, floatList l = .ok vs ∧ vs.length = l.length := by
  induction l with
  | nil => exact ⟨[], rfl, rfl⟩
  | cons t ts ih =>
      have ht : (pyFloat? t).isSome = true := h t (List.mem_cons_self t ts)
      obtain ⟨v, hv⟩ := Option.isSome_iff_exists.mp ht
      obtain ⟨vs, hvs, hlen⟩ := ih (fun x hx => h x (List.mem_cons_of_mem _ hx))
      refine ⟨v :: vs, ?_, by simp [hlen]⟩
      simp [floatList, hv, hvs, Except.map]

theorem floatList_err (good : List String) (bad : String) (rest : List String)
    (hg : ∀ t ∈ good, isNumTok t = true) (hb : isNumTok bad = false) :
    floatList (good ++ bad :: rest) = .error (.floatError bad) := by
  induction good with
  | nil =>
      cases hpf : pyFloat? bad with
      | some v => rw [isNumTok, hpf] at hb; cases hb
      | none => simp [floatList, hpf]
  | cons t ts ih =>
      have ht : (pyFloat? t).isSome = true := hg t (List.mem_cons_self t ts)
      obtain ⟨v, hv⟩ := Option.isSome_iff_exists.mp ht
      have := ih (fun x hx => hg x (List.mem_cons_of_mem _ hx))
      simp [floatList, hv, this, Except.map]

theorem broadcast3_length (pos : ℕ) (vals t : List ℚ)
    (h : broadcast3 pos vals = .ok t) : t.length = 3 := by
  unfold broadcast3 at h
  split at h
  · injection h with h; subst h; rfl
  · injection h with h; subst h; rfl
  · cases h

theorem broadcast3_err (pos : ℕ) (vals : List ℚ)
    (h1 : vals.length ≠ 1) (h3 : vals.length ≠ 3) :
    broadcast3 pos vals = .error (.broadcastMismatch pos vals.length) := by
  unfold broadcast3
  split <;> simp_all

theorem read_coordsAux_ok (lines : List Line) (n : ℕ) :
    ∀ pos, (∀ j, j < n → goodCoordLine (readLine lines (pos + j)) = true) →
    ∃ cs, read_coordsAux lines pos n = .ok cs ∧ cs.length = 3 * n := by
  induction n with
  | zero => exact fun pos _ => ⟨[], rfl, rfl⟩
  | succ n ih =>
      intro pos h
      have h0 : goodCoordLine (readLine lines (pos + 0)) = true := h 0 n.succ_pos
      rw [Nat.add_zero] at h0
      simp only [goodCoordLine, Bool.and_eq_true, beq_iff_eq, List.all_eq_true] at h0
      obtain ⟨hlen3, hnum⟩ := h0
      obtain ⟨vs, hvs, hvslen⟩ := floatList_ok _ hnum
      have hvs3 : vs.length = 3 := by rw [hvslen, hlen3]
      obtain ⟨a, b, c, rfl⟩ := destruct_three vs hvs3
      obtain ⟨cs, hcs, hcslen⟩ := ih (pos + 1) (fun j hj => by
        have hh := h (j + 1) (Nat.succ_lt_succ hj)
        rwa [show pos + (j + 1) = pos + 1 + j by omega] at hh)
      refine ⟨[a, b, c] ++ cs, ?_, by simp [hcslen]; omega⟩
      simp [read_coordsAux, hvs, broadcast3, hcs]

theorem read_coordsAux_length (lines : List Line) (n : ℕ) :
    ∀ pos cs, read_coordsAux lines pos n = .ok cs → cs.length = 3 * n := by
  induction n with
  | zero =>
      intro pos cs h
      simp only [read_coordsAux] at h
      cases h
      rfl
  | succ n ih =>
      intro pos cs h
      simp only [read_coordsAux] at h
      cases hf : floatList (readLine lines pos) with
      | error e => simp only [hf] at h; cases h
      | ok vals =>
          simp only [hf] at h
          cases hb : broadcast3 pos vals with
          | error e => simp only [hb] at h; cases h
          | ok triple =>
              simp only [hb] at h
              cases hr : read_coordsAux lines (pos + 1) n with
              | error e => simp only [hr] at h; cases h
              | ok rest =>
                  simp only [hr] at h
                  injection h with h
                  subst h
                  have h1 := ih (pos + 1) rest hr
                  have h2 := broadcast3_length pos vals triple hb
                  simp only [List.length_append]
                  omega

theorem read_coordsAux_fail_at (lines : List Line) (e : PyErr) (n : ℕ) :
    ∀ pos i, i < n →
    (∀ j, j < i → goodCoordLine (readLine lines (pos + j)) = true) →
    (match floatList (readLine lines (pos + i)) with
     | .error err => err = e
     | .ok vals => broadcast3 (pos + i) vals = .error e) →
    read_coordsAux lines pos n = .error e := by
  induction n with
  | zero => omega
  | succ n ih =>
      intro pos i hi hgood hbad
      cases i with
      | zero =>
          rw [Nat.add_zero] at hbad
          simp only [read_coordsAux]
          cases hf : floatList (readLine lines pos) with
          | error err =>
              simp only [hf] at hbad ⊢
              rw [hbad]
          | ok vals =>
              simp only [hf] at hbad ⊢
              simp only [hbad]
      | succ i =>
          have h0 : goodCoordLine (readLine lines (pos + 0)) = true :=
            hgood 0 i.succ_pos
          rw [Nat.add_zero] at h0
          simp only [goodCoordLine, Bool.and_eq_true, beq_iff_eq,
            List.all_eq_true] at h0
          obtain ⟨hlen3, hnum⟩ := h0
          obtain ⟨vs, hvs, hvslen⟩ := floatList_ok _ hnum
          have hvs3 : vs.length = 3 := by rw [hvslen, hlen3]
          obtain ⟨a, b, c, rfl⟩ := destruct_three vs hvs3
          have hrec := ih (pos + 1) i (Nat.lt_of_succ_lt_succ hi)
            (fun j hj => by
              have hh := hgood (j + 1) (Nat.succ_lt_succ hj)
              rwa [show pos + (j + 1) = pos + 1 + j by omega] at hh)
            (by rwa [show pos + 1 + i = pos + (i + 1) by omega])
          simp [read_coordsAux, hvs, broadcast3, hrec]

theorem read_coordsAux_exhaust (lines : List Line) (n : ℕ) :
    ∀ pos, (∀ j, pos ≤ j → j < lines.length →
        goodCoordLine (readLine lines j) = true) →
    pos ≤ lines.length → lines.length < pos + n →
    read_coordsAux lines pos n =
      .error (.broadcastMismatch lines.length 0) := by
  intro pos hgood hle hlt
  have hi : lines.length - pos < n := by omega
  apply read_coordsAux_fail_at lines _ n pos (lines.length - pos) hi
  · intro j hj
    exact hgood (pos + j) (Nat.le_add_right pos j) (by omega)
  · have hpos : pos + (lines.length - pos) = lines.length := by omega
    rw [hpos]
    have hline : readLine lines lines.length = [] :=
      List.getD_eq_default lines [] le_rfl
    rw [hline]
    simp [floatList, broadcast3]

theorem idxFrom_lookup_getD (ms : List Minimum) :
    ∀ (k0 : ℤ) (i : ℕ), i < ms.length →
    (idxFrom k0 ms).lookup (k0 + (i : ℤ)) = some (ms.getD i default) := by
  induction ms with
  | nil => intro k0 i hi; simp at hi
  | cons m ms ih =>
      intro k0 i hi
      cases i with
      | zero => norm_num [idxFrom, List.lookup]
      | succ i =>
          have h1 : k0 + ((i + 1 : ℕ) : ℤ) = k0 + 1 + (i : ℤ) := by
            push_cast
            ring
          rw [h1]
          have hne : (k0 + 1 + (i : ℤ) == k0) = false := by
            rw [beq_eq_false_iff_ne]
            omega
          simp only [idxFrom, List.lookup, hne, List.getD_cons_succ]
          exact ih (k0 + 1) i (Nat.lt_of_succ_lt_succ hi)

theorem idxFrom_lookup_none (ms : List Minimum) :
    ∀ (k0 k : ℤ), (k < k0 ∨ k0 + (ms.length : ℤ) ≤ k) →
    (idxFrom k0 ms).lookup k = none := by
  induction ms with
  | nil => intro k0 k _; rfl
  | cons m ms ih =>
      intro k0 k h
      simp only [List.length_cons] at h
      have hne : (k == k0) = false := by
        rw [beq_eq_false_iff_ne]
        push_cast at h
        omega
      simp only [idxFrom, List.lookup, hne]
      apply ih (k0 + 1) k
      push_cast at h ⊢
      omega

theorem idxFrom_lookup_isSome (ms : List Minimum) (k0 k : ℤ)
    (h1 : k0 ≤ k) (h2 : k < k0 + (ms.length : ℤ)) :
    ∃ mn, (idxFrom k0 ms).lookup k = some mn := by
  have hi : (k - k0).toNat < ms.length := by omega
  have hk : k0 + ((k - k0).toNat : ℤ) = k := by omega
  have hg := idxFrom_lookup_getD ms k0 (k - k0).toNat hi
  rw [hk] at hg
  exact ⟨ms.getD (k - k0).toNat default, hg⟩

theorem foldSteps_append {σ α : Type} (f : σ → α → σ × Option PyErr)
    (xs : List α) :
    ∀ (s : σ) (ys : List α),
    foldSteps f s (xs ++ ys) =
      match foldSteps f s xs with
      | (s', none) => foldSteps f s' ys
      | (s', some e) => (s', some e) := by
  induction xs with
  | nil => intro s ys; rfl
  | cons x xs ih =>
      intro s ys
      simp only [List.cons_append, foldSteps]
      rcases hfx : f s x with ⟨s', oe⟩
      cases oe with
      | none => simp only [hfx]; exact ih s' ys
      | some e => simp only [hfx]

theorem parseMinLine_arity (l : Line) (h : l.length ≠ 6) :
    parseMinLine l = .error (.unpackError l.length 6) := by
  unfold parseMinLine
  split
  · simp at h
  · rfl

theorem parseMinLine_floatErr (e f p x y z : String) (h : pyFloat? e = none) :
    parseMinLine [e, f, p, x, y, z] = .error (.floatError e) := by
  simp [parseMinLine, h]

theorem parseMinLine_ok (e f p x y z : String) (v : ℚ) (h : pyFloat? e = some v) :
    parseMinLine [e, f, p, x, y, z] = .ok v := by
  simp [parseMinLine, h]

theorem buildTs_arity (m : List (ℤ × Minimum)) (cs : List ℚ) (l : Line)
    (h : l.length ≠ 8) :
    buildTransitionState m cs l = .error (.unpackError l.length 8) := by
  unfold buildTransitionState
  split
  · simp at h
  · rfl

theorem buildTs_floatErr (m : List (ℤ × Minimum)) (cs : List ℚ)
    (e f p m1s m2s x y z : String) (h : pyFloat? e = none) :
    buildTransitionState m cs [e, f, p, m1s, m2s, x, y, z] =
      .error (.floatError e) := by
  simp [buildTransitionState, h]

theorem buildTs_intErr1 (m : List (ℤ × Minimum)) (cs : List ℚ)
    (e f p m1s m2s x y z : String) (v : ℚ)
    (hv : pyFloat? e = some v) (h1 : pyInt? m1s = none) :
    buildTransitionState m cs [e, f, p, m1s, m2s, x, y, z] =
      .error (.intError m1s) := by
  simp [buildTransitionState, hv, h1]

theorem buildTs_intErr2 (m : List (ℤ × Minimum)) (cs : List ℚ)
    (e f p m1s m2s x y z : String) (v : ℚ) (k1 : ℤ) (mn1 : Minimum)
    (hv : pyFloat? e = some v) (h1 : pyInt? m1s = some k1)
    (hl1 : m.lookup k1 = some mn1) (h2 : pyInt? m2s = none) :
    buildTransitionState m cs [e, f, p, m1s, m2s, x, y, z] =
      .error (.intError m2s) := by
  simp [buildTransitionState, hv, h1, h2, dictLookup, hl1]

theorem buildTs_keyErr (m : List (ℤ × Minimum)) (cs : List ℚ)
    (e f p m1s m2s x y z : String) (v : ℚ) (k1 k2 : ℤ)
    (hv : pyFloat? e = some v) (h1 : pyInt? m1s = some k1)
    (h2 : pyInt? m2s = some k2)
    (habs : m.lookup k1 = none ∨ m.lookup k2 = none) :
    ∃ k, buildTransitionState m cs [e, f, p, m1s, m2s, x, y, z] =
      .error (.keyError k) ∧ m.lookup k = none ∧ (k = k1 ∨ k = k2) := by
  cases hl1 : m.lookup k1 with
  | none =>
      exact ⟨k1, by simp [buildTransitionState, hv, h1, dictLookup, hl1],
        hl1, Or.inl rfl⟩
  | some mn1 =>
      cases habs with
      | inl hcon => rw [hl1] at hcon; cases hcon
      | inr habs2 =>
          exact ⟨k2, by
            simp [buildTransitionState, hv, h1, h2, dictLookup, hl1, habs2],
            habs2, Or.inr rfl⟩

theorem buildTs_ok (m : List (ℤ × Minimum)) (cs : List ℚ)
    (e f p m1s m2s x y z : String) (v : ℚ) (k1 k2 : ℤ) (mn1 mn2 : Minimum)
    (hv : pyFloat? e = some v) (h1 : pyInt? m1s = some k1)
    (hl1 : m.lookup k1 = some mn1) (h2 : pyInt? m2s = some k2)
    (hl2 : m.lookup k2 = some mn2) :
    buildTransitionState m cs [e, f, p, m1s, m2s, x, y, z] =
      .ok ⟨v, cs, mn1, mn2⟩ := by
  simp [buildTransitionState, hv, h1, h2, dictLookup, hl1, hl2]

theorem read_coords_ok_iff (nat : ℕ) (lines : List Line) (pos : ℕ)
    (cs : List ℚ) (p : ℕ) :
    read_coords nat lines pos = .ok (cs, p) ↔
      read_coordsAux lines pos nat = .ok cs ∧ p = pos + nat := by
  unfold read_coords
  cases h : read_coordsAux lines pos nat <;>
    simp [Except.map, h, and_comm, eq_comm]

theorem dictLookup_ok (m : List (ℤ × Minimum)) (k : ℤ) (mn : Minimum)
    (h : dictLookup m k = .ok mn) : m.lookup k = some mn := by
  unfold dictLookup at h
  split at h
  · injection h with h
    subst h
    assumption
  · cases h

theorem buildTs_ok_inv (m : List (ℤ × Minimum)) (cs : List ℚ) (l : Line)
    (t : TransitionState) (h : buildTransitionState m cs l = .ok t) :
    (∃ k1, m.lookup k1 = some t.min1) ∧ (∃ k2, m.lookup k2 = some t.min2) := by
  unfold buildTransitionState at h
  split at h
  · split at h
    · cases h
    · split at h
      · cases h
      · split at h
        · cases h
        · split at h
          · cases h
          · split at h
            · cases h
            · injection h with h
              subst h
              constructor
              · exact ⟨_, dictLookup_ok _ _ _ (by assumption)⟩
              · exact ⟨_, dictLookup_ok _ _ _ (by assumption)⟩
  · cases h

theorem minStep_shape (nat : ℕ) (coords : List Line) (s : RunState) (l : Line)
    (s' : RunState) (oe : Option PyErr) (h : minStep nat coords s l = (s', oe)) :
    (s' = s ∧ oe.isSome = true) ∨
    (∃ mn, s' = { s with
        coordPos := s.coordPos + nat
        mini := s.mini + 1
        minima := s.minima ++ [(s.mini, mn)]
        stagedMin := s.stagedMin ++ [mn]
        trace := s.trace ++ [.stageMin mn] } ∧ oe = none) := by
  unfold minStep at h
  cases hrc : read_coords nat coords s.coordPos with
  | error e =>
      simp only [hrc] at h
      cases h
      exact .inl ⟨rfl, rfl⟩
  | ok pr =>
      rcases pr with ⟨cs, p⟩
      obtain ⟨haux, rfl⟩ := (read_coords_ok_iff nat coords s.coordPos cs p).mp hrc
      simp only [hrc] at h
      cases hp : parseMinLine l with
      | error e =>
          simp only [hp] at h
          cases h
          exact .inl ⟨rfl, rfl⟩
      | ok v =>
          simp only [hp] at h
          cases h
          exact .inr ⟨⟨v, cs⟩, rfl, rfl⟩

theorem tsStep_shape (nat : ℕ) (coords : List Line) (s : RunState) (l : Line)
    (s' : RunState) (oe : Option PyErr) (h : tsStep nat coords s l = (s', oe)) :
    (s' = s ∧ oe.isSome = true) ∨
    (∃ t, (∃ k1, s.minima.lookup k1 = some t.min1) ∧
          (∃ k2, s.minima.lookup k2 = some t.min2) ∧
          s' = { s with
              coordPos := s.coordPos + nat
              stagedTs := s.stagedTs ++ [t]
              trace := s.trace ++ [.buildTs t, .stageTs t] } ∧ oe = none) := by
  unfold tsStep at h
  cases hrc : read_coords nat coords s.coordPos with
  | error e =>
      simp only [hrc] at h
      cases h
      exact .inl ⟨rfl, rfl⟩
  | ok pr =>
      rcases pr with ⟨cs, p⟩
      obtain ⟨haux, rfl⟩ := (read_coords_ok_iff nat coords s.coordPos cs p).mp hrc
      simp only [hrc] at h
      cases hb : buildTransitionState s.minima cs l with
      | error e =>
          simp only [hb] at h
          cases h
          exact .inl ⟨rfl, rfl⟩
      | ok t =>
          simp only [hb] at h
          cases h
          obtain ⟨hk1, hk2⟩ := buildTs_ok_inv _ _ _ _ hb
          exact .inr ⟨t, hk1, hk2, rfl, rfl⟩

theorem minFold_shape (nat : ℕ) (coords : List Line) (ls : List Line) :
    ∀ s s' oe, foldSteps (minStep nat coords) s ls = (s', oe) →
    s'.stagedTs = s.stagedTs ∧
    (∀ kv ∈ s'.minima, kv ∈ s.minima ∨ kv.2 ∈ s'.stagedMin) ∧
    (∃ added, s'.stagedMin = s.stagedMin ++ added) ∧
    (∃ tail, s'.trace = s.trace ++ tail ∧
      ∀ ev ∈ tail, ∃ mn, ev = Event.stageMin mn) := by
  induction ls with
  | nil =>
      intro s s' oe h
      cases h
      exact ⟨rfl, fun kv hkv => .inl hkv, ⟨[], by simp⟩, ⟨[], by simp, by simp⟩⟩
  | cons l ls ih =>
      intro s s' oe h
      simp only [foldSteps] at h
      rcases hstep : minStep nat coords s l with ⟨s1, oe1⟩
      rcases minStep_shape nat coords s l s1 oe1 hstep with
        ⟨rfl, hsome⟩ | ⟨mn, rfl, rfl⟩
      · cases oe1 with
        | none => cases hsome
        | some e =>
            simp only [hstep] at h
            cases h
            exact ⟨rfl, fun kv hkv => .inl hkv, ⟨[], by simp⟩,
              ⟨[], by simp, by simp⟩⟩
      · simp only [hstep] at h
        obtain ⟨hts, hmin, ⟨added, hst⟩, ⟨tail, htr, htail⟩⟩ := ih _ s' oe h
        refine ⟨by simp_all, ?_, ⟨mn :: added, by simp_all⟩,
          ⟨Event.stageMin mn :: tail, by simp_all, ?_⟩⟩
        · intro kv hkv
          rcases hmin kv hkv with hkv1 | hkv2
          · simp only [List.mem_append, List.mem_singleton] at hkv1
            rcases hkv1 with hkv1 | hkv1
            · exact .inl hkv1
            · right
              rw [hst]
              subst hkv1
              simp
          · exact .inr hkv2
        · intro ev hev
          rcases List.mem_cons.mp hev with rfl | hev
          · exact ⟨mn, rfl⟩
          · exact htail ev hev

theorem tsFold_shape (nat : ℕ) (coords : List Line) (ls : List Line) :
    ∀ s s' oe, foldSteps (tsStep nat coords) s ls = (s', oe) →
    s'.minima = s.minima ∧ s'.stagedMin = s.stagedMin ∧
    (∃ added, s'.stagedTs = s.stagedTs ++ added ∧
      ∀ t ∈ added, (∃ k1, s.minima.lookup k1 = some t.min1) ∧
                   (∃ k2, s.minima.lookup k2 = some t.min2)) ∧
    (∃ tail, s'.trace = s.trace ++ tail ∧
      ∀ ev ∈ tail, (∃ t, ev = Event.buildTs t) ∨ (∃ t, ev = Event.stageTs t)) := by
  induction ls with
  | nil =>
      intro s s' oe h
      cases h
      exact ⟨rfl, rfl, ⟨[], by simp, by simp⟩, ⟨[], by simp, by simp⟩⟩
  | cons l ls ih =>
      intro s s' oe h
      simp only [foldSteps] at h
      rcases hstep : tsStep nat coords s l with ⟨s1, oe1⟩
      rcases tsStep_shape nat coords s l s1 oe1 hstep with
        ⟨rfl, hsome⟩ | ⟨t, hk1, hk2, rfl, rfl⟩
      · cases oe1 with
        | none => cases hsome
        | some e =>
            simp only [hstep] at h
            cases h
            exact ⟨rfl, rfl, ⟨[], by simp, by simp⟩, ⟨[], by simp, by simp⟩⟩
      · simp only [hstep] at h
        obtain ⟨hm, hsm, ⟨added, hts, hadd⟩, ⟨tail, htr, htail⟩⟩ := ih _ s' oe h
        simp only at hm hsm hts htr
        refine ⟨hm, hsm, ⟨t :: added, by simp_all, ?_⟩,
          ⟨Event.buildTs t :: Event.stageTs t :: tail, by simp_all, ?_⟩⟩
        · intro u hu
          rcases List.mem_cons.mp hu with rfl | hu
          · exact ⟨hk1, hk2⟩
          · exact hadd u hu
        · intro ev hev
          rcases List.mem_cons.mp hev with rfl | hev
          · exact .inl ⟨t, rfl⟩
          · rcases List.mem_cons.mp hev with rfl | hev
            · exact .inr ⟨t, rfl⟩
            · exact htail ev hev

/-- Events emitted by a sequence of successful transition-state iterations:
each record is built, then staged. -/
def tsEvents : List TransitionState → List Event
  | [] => []
  | t :: ts => Event.buildTs t :: Event.stageTs t :: tsEvents ts

theorem runScript_ok_decomp (nat : ℕ) (minD minC tsD tsC : List Line)
    (r : RunState) (h : runScript nat minD minC tsD tsC = (r, none)) :
    ∃ s1 s4,
      foldSteps (minStep nat minC) ⟨0, 1, [], [], [], []⟩ minD = (s1, none) ∧
      foldSteps (tsStep nat tsC)
        { s1 with coordPos := 0, trace := s1.trace ++ [Event.commit] } tsD
        = (s4, none) ∧
      r = { s4 with trace := s4.trace ++ [Event.commit] } := by
  unfold runScript at h
  rcases h1 : foldSteps (minStep nat minC) ⟨0, 1, [], [], [], []⟩ minD
    with ⟨s1, oe1⟩
  simp only [h1] at h
  cases oe1 with
  | some e => injection h with ha hb; cases hb
  | none =>
      rcases h2 : foldSteps (tsStep nat tsC)
          { s1 with coordPos := 0, trace := s1.trace ++ [Event.commit] } tsD
        with ⟨s4, oe4⟩
      simp only [h2] at h
      cases oe4 with
      | some e => injection h with ha hb; cases hb
      | none =>
          injection h with ha hb
          refine ⟨s1, s4, ?_, ?_, ha.symm⟩
          · first
            | exact h1
            | rfl
          · first
            | exact h2
            | rfl

theorem minStep_ok (nat : ℕ) (coords : List Line) (s : RunState)
    (e f p x y z : String) (v : ℚ) (cs : List ℚ)
    (haux : read_coordsAux coords s.coordPos nat = .ok cs)
    (hv : pyFloat? e = some v) :
    minStep nat coords s [e, f, p, x, y, z] =
      ({ s with
          coordPos := s.coordPos + nat
          mini := s.mini + 1
          minima := s.minima ++ [(s.mini, ⟨v, cs⟩)]
          stagedMin := s.stagedMin ++ [⟨v, cs⟩]
          trace := s.trace ++ [.stageMin ⟨v, cs⟩] }, none) := by
  have hrc : read_coords nat coords s.coordPos = .ok (cs, s.coordPos + nat) :=
    (read_coords_ok_iff _ _ _ _ _).mpr ⟨haux, rfl⟩
  have hp := parseMinLine_ok e f p x y z v hv
  simp only [minStep, hrc, hp]

theorem tsStep_ok (nat : ℕ) (coords : List Line) (s : RunState)
    (l : Line) (cs : List ℚ) (t : TransitionState)
    (haux : read_coordsAux coords s.coordPos nat = .ok cs)
    (hb : buildTransitionState s.minima cs l = .ok t) :
    tsStep nat coords s l =
      ({ s with
          coordPos := s.coordPos + nat
          stagedTs := s.stagedTs ++ [t]
          trace := s.trace ++ [.buildTs t, .stageTs t] }, none) := by
  have hrc : read_coords nat coords s.coordPos = .ok (cs, s.coordPos + nat) :=
    (read_coords_ok_iff _ _ _ _ _).mpr ⟨haux, rfl⟩
  simp only [tsStep, hrc, hb]

theorem phase1_ok (nat : ℕ) (coords : List Line) (ls : List Line) :
    ∀ s : RunState,
    (∀ l ∈ ls, validMinLine l = true) →
    (∀ j, j < nat * ls.length →
        goodCoordLine (readLine coords (s.coordPos + j)) = true) →
    ∃ ms : List Minimum,
      foldSteps (minStep nat coords) s ls =
        ({ s with
            coordPos := s.coordPos + nat * ls.length
            mini := s.mini + ls.length
            minima := s.minima ++ idxFrom s.mini ms
            stagedMin := s.stagedMin ++ ms
            trace := s.trace ++ ms.map Event.stageMin }, none) ∧
      ms.length = ls.length ∧
      ∀ i, i < ls.length →
        (ms.getD i default).coords.length = 3 * nat ∧
        pyFloat? ((ls.getD i []).headD "") = some (ms.getD i default).energy := by
  induction ls with
  | nil =>
      intro s _ _
      refine ⟨[], ?_, rfl, fun i hi => absurd hi (by simp)⟩
      simp [foldSteps, idxFrom]
  | cons l ls ih =>
      intro s hv hC
      have hl : validMinLine l = true := hv l (List.mem_cons_self l ls)
      simp only [validMinLine, Bool.and_eq_true, beq_iff_eq] at hl
      obtain ⟨hlen, hnum⟩ := hl
      obtain ⟨e, f, p, x, y, z, rfl⟩ := destruct_six l hlen
      simp only [List.headD_cons, isNumTok] at hnum
      obtain ⟨v, hv0⟩ := Option.isSome_iff_exists.mp hnum
      have hgood1 : ∀ j, j < nat →
          goodCoordLine (readLine coords (s.coordPos + j)) = true := by
        intro j hj
        apply hC
        simp only [List.length_cons, Nat.mul_succ]
        omega
      obtain ⟨cs, haux, hcslen⟩ := read_coordsAux_ok coords nat s.coordPos hgood1
      have hstep := minStep_ok nat coords s e f p x y z v cs haux hv0
      obtain ⟨ms, hfold, hmslen, hchar⟩ := ih
        { s with
            coordPos := s.coordPos + nat
            mini := s.mini + 1
            minima := s.minima ++ [(s.mini, ⟨v, cs⟩)]
            stagedMin := s.stagedMin ++ [⟨v, cs⟩]
            trace := s.trace ++ [.stageMin ⟨v, cs⟩] }
        (fun l hl => hv l (List.mem_cons_of_mem _ hl))
        (by
          intro j hj
          show goodCoordLine (readLine coords (s.coordPos + nat + j)) = true
          have hh := hC (nat + j) (by
            simp only [List.length_cons, Nat.mul_succ]
            omega)
          rwa [show s.coordPos + (nat + j) = s.coordPos + nat + j by omega] at hh)
      refine ⟨⟨v, cs⟩ :: ms, ?_, by simp [hmslen], ?_⟩
      · simp only [foldSteps, hstep, hfold]
        refine congrArg (fun st => (st, (none : Option PyErr))) ?_
        simp only [RunState.mk.injEq, List.length_cons]
        and_intros <;>
          first
            | (simp only [Nat.mul_succ]; omega)
            | (push_cast; ring1)
            | (simp [idxFrom, List.append_assoc, add_comm])
            | trivial
      · intro i hi
        cases i with
        | zero =>
            refine ⟨by simpa using hcslen, ?_⟩
            simp [hv0]
        | succ i =>
            have := hchar i (by simpa using Nat.lt_of_succ_lt_succ hi)
            simpa using this

theorem validTsLine_elim (n : ℕ) (l : Line) (h : validTsLine n l = true) :
    ∃ e f p m1s m2s x y z v k1 k2,
      l = [e, f, p, m1s, m2s, x, y, z] ∧
      pyFloat? e = some v ∧
      pyInt? m1s = some k1 ∧ 1 ≤ k1 ∧ k1 ≤ (n : ℤ) ∧
      pyInt? m2s = some k2 ∧ 1 ≤ k2 ∧ k2 ≤ (n : ℤ) := by
  simp only [validTsLine, Bool.and_eq_true, beq_iff_eq] at h
  obtain ⟨⟨⟨hlen, hnum⟩, h3⟩, h4⟩ := h
  obtain ⟨e, f, p, m1s, m2s, x, y, z, rfl⟩ := destruct_eight l hlen
  simp only [List.headD_cons, isNumTok] at hnum
  obtain ⟨v, hv⟩ := Option.isSome_iff_exists.mp hnum
  simp only [List.getD_cons_succ, List.getD_cons_zero] at h3 h4
  cases h1 : pyInt? m1s with
  | none =>
      simp only [h1] at h3
      exact absurd h3 (by simp)
  | some k1 =>
      simp only [h1, Bool.and_eq_true, decide_eq_true_eq] at h3
      cases h2 : pyInt? m2s with
      | none =>
          simp only [h2] at h4
          exact absurd h4 (by simp)
      | some k2 =>
          simp only [h2, Bool.and_eq_true, decide_eq_true_eq] at h4
          exact ⟨e, f, p, m1s, m2s, x, y, z, v, k1, k2, rfl, hv,
            h1, h3.1, h3.2, h2, h4.1, h4.2⟩

theorem phase2_ok (nat n : ℕ) (coords : List Line) (ls : List Line) :
    ∀ s : RunState,
    (∀ l ∈ ls, validTsLine n l = true) →
    (∀ k : ℤ, 1 ≤ k → k ≤ (n : ℤ) → ∃ mn, s.minima.lookup k = some mn) →
    (∀ j, j < nat * ls.length →
        goodCoordLine (readLine coords (s.coordPos + j)) = true) →
    ∃ ts : List TransitionState,
      foldSteps (tsStep nat coords) s ls =
        ({ s with
            coordPos := s.coordPos + nat * ls.length
            stagedTs := s.stagedTs ++ ts
            trace := s.trace ++ tsEvents ts }, none) ∧
      ts.length = ls.length := by
  induction ls with
  | nil =>
      intro s _ _ _
      refine ⟨[], ?_, rfl⟩
      simp [foldSteps, tsEvents]
  | cons l ls ih =>
      intro s hv hLk hC
      obtain ⟨e, f, p, m1s, m2s, x, y, z, v, k1, k2, rfl, hve, h1, hk1a, hk1b,
        h2, hk2a, hk2b⟩ := validTsLine_elim n l (hv l (List.mem_cons_self l ls))
      obtain ⟨mn1, hl1⟩ := hLk k1 hk1a hk1b
      obtain ⟨mn2, hl2⟩ := hLk k2 hk2a hk2b
      have hgood1 : ∀ j, j < nat →
          goodCoordLine (readLine coords (s.coordPos + j)) = true := by
        intro j hj
        apply hC
        simp only [List.length_cons, Nat.mul_succ]
        omega
      obtain ⟨cs, haux, _⟩ := read_coordsAux_ok coords nat s.coordPos hgood1
      have hb := buildTs_ok s.minima cs e f p m1s m2s x y z v k1 k2 mn1 mn2
        hve h1 hl1 h2 hl2
      have hstep := tsStep_ok nat coords s _ cs ⟨v, cs, mn1, mn2⟩ haux hb
      obtain ⟨ts, hfold, htslen⟩ := ih
        { s with
            coordPos := s.coordPos + nat
            stagedTs := s.stagedTs ++ [⟨v, cs, mn1, mn2⟩]
            trace := s.trace ++
              [.buildTs ⟨v, cs, mn1, mn2⟩, .stageTs ⟨v, cs, mn1, mn2⟩] }
        (fun l hl => hv l (List.mem_cons_of_mem _ hl))
        (by
          intro k hka hkb
          show ∃ mn, s.minima.lookup k = some mn
          exact hLk k hka hkb)
        (by
          intro j hj
          show goodCoordLine (readLine coords (s.coordPos + nat + j)) = true
          have hh := hC (nat + j) (by
            simp only [List.length_cons, Nat.mul_succ]
            omega)
          rwa [show s.coordPos + (nat + j) = s.coordPos + nat + j by omega]
            at hh)
      refine ⟨⟨v, cs, mn1, mn2⟩ :: ts, ?_, by simp [htslen]⟩
      simp only [foldSteps, hstep, hfold]
      refine congrArg (fun st => (st, (none : Option PyErr))) ?_
      simp only [RunState.mk.injEq, List.length_cons]
      and_intros <;>
        first
          | (simp only [Nat.mul_succ]; omega)
          | (simp [tsEvents, List.append_assoc])
          | trivial

theorem foldSteps_stop {σ α : Type} (f : σ → α → σ × Option PyErr)
    (pre : List α) (bad : α) (rest : List α) (s s1 s2 : σ) (e : PyErr)
    (h1 : foldSteps f s pre = (s1, none)) (h2 : f s1 bad = (s2, some e)) :
    foldSteps f s (pre ++ bad :: rest) = (s2, some e) := by
  rw [foldSteps_append]
  simp only [h1, foldSteps, h2]

theorem minStep_err_read (nat : ℕ) (coords : List Line) (s : RunState)
    (l : Line) (e : PyErr)
    (h : read_coordsAux coords s.coordPos nat = .error e) :
    minStep nat coords s l = (s, some e) := by
  have hrc : read_coords nat coords s.coordPos = .error e := by
    unfold read_coords
    rw [h]
    rfl
  simp only [minStep, hrc]

theorem tsStep_err_read (nat : ℕ) (coords : List Line) (s : RunState)
    (l : Line) (e : PyErr)
    (h : read_coordsAux coords s.coordPos nat = .error e) :
    tsStep nat coords s l = (s, some e) := by
  have hrc : read_coords nat coords s.coordPos = .error e := by
    unfold read_coords
    rw [h]
    rfl
  simp only [tsStep, hrc]

theorem tsStep_err_build (nat : ℕ) (coords : List Line) (s : RunState)
    (l : Line) (cs : List ℚ) (e : PyErr)
    (haux : read_coordsAux coords s.coordPos nat = .ok cs)
    (hb : buildTransitionState s.minima cs l = .error e) :
    tsStep nat coords s l = (s, some e) := by
  have hrc : read_coords nat coords s.coordPos = .ok (cs, s.coordPos + nat) :=
    (read_coords_ok_iff _ _ _ _ _).mpr ⟨haux, rfl⟩
  simp only [tsStep, hrc, hb]

/-! ### Concrete demonstration inputs -/

/-- Minima summary file of the spec scenario: two minima. -/
def demoMinData : List Line :=
  [["-10", "1", "1", "0", "0", "0"], ["-9", "1", "1", "0", "0", "0"]]

/-- Minima coordinate file for atom count 2: four `x y z` lines. -/
def demoMinCoords : List Line :=
  [["0", "0", "0"], ["0", "0", "1"], ["1", "0", "0"], ["1", "0", "1"]]

/-- Transition-state summary file: one record connecting minima 1 and 2. -/
def demoTsData : List Line :=
  [["-5", "1", "1", "1", "2", "0", "0", "0"]]

/-- Transition-state coordinate file for atom count 2. -/
def demoTsCoords : List Line :=
  [["0", "1", "0"], ["0", "1", "1"]]

/-- Result state of the demonstration run (atom count 2). -/
def demoRun : RunState :=
  (runScript 2 demoMinData demoMinCoords demoTsData demoTsCoords).1

/-! ### Claim theorems -/

/-- C1: for every successfully completed run, each staged TransitionState
has both endpoint references equal to Minimum records that were built and
staged during phase 1 and recorded in the minima index; no TransitionState
references an entity outside that index. -/
theorem ts_endpoints_are_phase1_minima (nat : ℕ)
    (minData minCoords tsData tsCoords : List Line) (r : RunState)
    (h : runScript nat minData minCoords tsData tsCoords = (r, none)) :
    ∀ t ∈ r.stagedTs,
      (∃ k, r.minima.lookup k = some t.min1) ∧
      (∃ k, r.minima.lookup k = some t.min2) ∧
      t.min1 ∈ r.stagedMin ∧ t.min2 ∈ r.stagedMin := by
  obtain ⟨s1, s4, h1, h2, rfl⟩ :=
    runScript_ok_decomp nat minData minCoords tsData tsCoords r h
  obtain ⟨hts1, hmin1, hsm1, htr1⟩ := minFold_shape nat minCoords minData _ s1 none h1
  obtain ⟨hm4, hsm4, ⟨added, hts4, hadd⟩, htr4⟩ :=
    tsFold_shape nat tsCoords tsData _ s4 none h2
  intro t ht
  replace ht : t ∈ s4.stagedTs := ht
  rw [hts4] at ht
  replace ht : t ∈ s1.stagedTs ++ added := ht
  rw [hts1] at ht
  replace ht : t ∈ ([] : List TransitionState) ++ added := ht
  rw [List.nil_append] at ht
  obtain ⟨⟨k1, hk1⟩, ⟨k2, hk2⟩⟩ := hadd t ht
  have hk1s : s1.minima.lookup k1 = some t.min1 := hk1
  have hk2s : s1.minima.lookup k2 = some t.min2 := hk2
  have hmm1 : (k1, t.min1) ∈ s1.minima := lookup_mem _ k1 t.min1 hk1s
  have hmm2 : (k2, t.min2) ∈ s1.minima := lookup_mem _ k2 t.min2 hk2s
  have hin1 : t.min1 ∈ s1.stagedMin := by
    rcases hmin1 _ hmm1 with hc | hc
    · exact absurd (show (k1, t.min1) ∈ ([] : List (ℤ × Minimum)) from hc)
        (List.not_mem_nil _)
    · exact hc
  have hin2 : t.min2 ∈ s1.stagedMin := by
    rcases hmin1 _ hmm2 with hc | hc
    · exact absurd (show (k2, t.min2) ∈ ([] : List (ℤ × Minimum)) from hc)
        (List.not_mem_nil _)
    · exact hc
  refine ⟨⟨k1, ?_⟩, ⟨k2, ?_⟩, ?_, ?_⟩
  · show s4.minima.lookup k1 = some t.min1
    rw [hm4]
    exact hk1
  · show s4.minima.lookup k2 = some t.min2
    rw [hm4]
    exact hk2
  · show t.min1 ∈ s4.stagedMin
    rw [hsm4]
    exact hin1
  · show t.min2 ∈ s4.stagedMin
    rw [hsm4]
    exact hin2

/-- Witness for the C1 theorem: the demonstration run completes and the
endpoint property holds for its one transition state. -/
theorem ts_endpoints_are_phase1_minima_witness :
    runScript 2 demoMinData demoMinCoords demoTsData demoTsCoords
      = (demoRun, none) ∧
    ∀ t ∈ demoRun.stagedTs,
      (∃ k, demoRun.minima.lookup k = some t.min1) ∧
      (∃ k, demoRun.minima.lookup k = some t.min2) ∧
      t.min1 ∈ demoRun.stagedMin ∧ t.min2 ∈ demoRun.stagedMin :=
  ⟨by decide,
    ts_endpoints_are_phase1_minima 2 demoMinData demoMinCoords demoTsData
      demoTsCoords demoRun (by decide)⟩

theorem runScript_eval (nat : ℕ) (minD minC tsD tsC : List Line)
    (s1 s4 : RunState)
    (h1 : foldSteps (minStep nat minC) ⟨0, 1, [], [], [], []⟩ minD = (s1, none))
    (h2 : foldSteps (tsStep nat tsC)
        { s1 with coordPos := 0, trace := s1.trace ++ [Event.commit] } tsD
        = (s4, none)) :
    runScript nat minD minC tsD tsC =
      ({ s4 with trace := s4.trace ++ [Event.commit] }, none) := by
  unfold runScript
  simp only [h1, h2]

/-- C2: for every valid input (well-formed minima summary lines, coordinate
file supplying one good block per summary line, well-formed transition-state
input) the run completes, the number of Minimum records created and staged
equals the number of minima summary lines, and the index maps each 1-based
ordinal `1 + i` to the Minimum built from summary line `i`: its energy is
the parsed first field of that line and its coordinate vector is the block
of length `3 * nat` read for it. -/
theorem minima_records_and_index (nat : ℕ)
    (minData minCoords tsData tsCoords : List Line)
    (hv : ∀ l ∈ minData, validMinLine l = true)
    (hC : ∀ j, j < nat * minData.length →
        goodCoordLine (readLine minCoords j) = true)
    (hvt : ∀ l ∈ tsData, validTsLine minData.length l = true)
    (hCt : ∀ j, j < nat * tsData.length →
        goodCoordLine (readLine tsCoords j) = true) :
    ∃ r, runScript nat minData minCoords tsData tsCoords = (r, none) ∧
      r.stagedMin.length = minData.length ∧
      ∀ i, i < minData.length →
        r.minima.lookup (1 + (i : ℤ)) = some (r.stagedMin.getD i default) ∧
        pyFloat? ((minData.getD i []).headD "") =
          some ((r.stagedMin.getD i default).energy) ∧
        (r.stagedMin.getD i default).coords.length = 3 * nat := by
  obtain ⟨ms, hfold, hmslen, hchar⟩ := phase1_ok nat minCoords minData
    ⟨0, 1, [], [], [], []⟩ hv (by
      intro j hj
      simpa using hC j hj)
  have hfold1 : foldSteps (minStep nat minCoords) ⟨0, 1, [], [], [], []⟩
      minData =
      (⟨0 + nat * minData.length, 1 + (minData.length : ℤ), idxFrom 1 ms, ms,
        [], ms.map Event.stageMin⟩, none) := hfold
  obtain ⟨ts, hfold2, htslen⟩ := phase2_ok nat minData.length tsCoords tsData
    { (⟨0 + nat * minData.length, 1 + (minData.length : ℤ), idxFrom 1 ms, ms,
        [], ms.map Event.stageMin⟩ : RunState) with
        coordPos := 0
        trace := (⟨0 + nat * minData.length, 1 + (minData.length : ℤ),
          idxFrom 1 ms, ms, [], ms.map Event.stageMin⟩ : RunState).trace ++
          [Event.commit] }
    hvt
    (by
      intro k hk1 hk2
      obtain ⟨mn, hmn⟩ := idxFrom_lookup_isSome ms 1 k hk1 (by
        have : ms.length = minData.length := hmslen
        omega)
      exact ⟨mn, hmn⟩)
    (by
      intro j hj
      simpa using hCt j hj)
  refine ⟨_, runScript_eval nat minData minCoords tsData tsCoords _ _
    hfold1 hfold2, ?_, ?_⟩
  · exact hmslen
  · intro i hi
    have hims : i < ms.length := by omega
    refine ⟨?_, ?_, ?_⟩
    · exact idxFrom_lookup_getD ms 1 i hims
    · exact (hchar i hi).2
    · exact (hchar i hi).1

theorem runScript_eval_minErr (nat : ℕ) (minD minC tsD tsC : List Line)
    (s1 : RunState) (e : PyErr)
    (h1 : foldSteps (minStep nat minC) ⟨0, 1, [], [], [], []⟩ minD
      = (s1, some e)) :
    runScript nat minD minC tsD tsC = (s1, some e) := by
  unfold runScript
  simp only [h1]

theorem runScript_eval_tsErr (nat : ℕ) (minD minC tsD tsC : List Line)
    (s1 s4 : RunState) (e : PyErr)
    (h1 : foldSteps (minStep nat minC) ⟨0, 1, [], [], [], []⟩ minD = (s1, none))
    (h2 : foldSteps (tsStep nat tsC)
        { s1 with coordPos := 0, trace := s1.trace ++ [Event.commit] } tsD
        = (s4, some e)) :
    runScript nat minD minC tsD tsC = (s4, some e) := by
  unfold runScript
  simp only [h1, h2]

/-- C3: for every valid input the run completes and the number of
TransitionState records created and staged equals the number of lines of the
transition-state summary file. -/
theorem ts_record_count (nat : ℕ)
    (minData minCoords tsData tsCoords : List Line)
    (hv : ∀ l ∈ minData, validMinLine l = true)
    (hC : ∀ j, j < nat * minData.length →
        goodCoordLine (readLine minCoords j) = true)
    (hvt : ∀ l ∈ tsData, validTsLine minData.length l = true)
    (hCt : ∀ j, j < nat * tsData.length →
        goodCoordLine (readLine tsCoords j) = true) :
    ∃ r, runScript nat minData minCoords tsData tsCoords = (r, none) ∧
      r.stagedTs.length = tsData.length := by
  obtain ⟨ms, hfold, hmslen, hchar⟩ := phase1_ok nat minCoords minData
    ⟨0, 1, [], [], [], []⟩ hv (by
      intro j hj
      simpa using hC j hj)
  have hfold1 : foldSteps (minStep nat minCoords) ⟨0, 1, [], [], [], []⟩
      minData =
      (⟨0 + nat * minData.length, 1 + (minData.length : ℤ), idxFrom 1 ms, ms,
        [], ms.map Event.stageMin⟩, none) := hfold
  obtain ⟨ts, hfold2, htslen⟩ := phase2_ok nat minData.length tsCoords tsData
    { (⟨0 + nat * minData.length, 1 + (minData.length : ℤ), idxFrom 1 ms, ms,
        [], ms.map Event.stageMin⟩ : RunState) with
        coordPos := 0
        trace := (⟨0 + nat * minData.length, 1 + (minData.length : ℤ),
          idxFrom 1 ms, ms, [], ms.map Event.stageMin⟩ : RunState).trace ++
          [Event.commit] }
    hvt
    (by
      intro k hk1 hk2
      obtain ⟨mn, hmn⟩ := idxFrom_lookup_isSome ms 1 k hk1 (by
        have : ms.length = minData.length := hmslen
        omega)
      exact ⟨mn, hmn⟩)
    (by
      intro j hj
      simpa using hCt j hj)
  exact ⟨_, runScript_eval nat minData minCoords tsData tsCoords _ _
    hfold1 hfold2, htslen⟩

/-- C4: a successfully completed run commits exactly twice: every minimum is
staged before the first commit, every transition state is built and staged
strictly between the first and the second commit, and the second commit is
the final event of the run. -/
theorem driver_commits_twice (nat : ℕ)
    (minData minCoords tsData tsCoords : List Line) (r : RunState)
    (h : runScript nat minData minCoords tsData tsCoords = (r, none)) :
    ∃ pre mid,
      r.trace = pre ++ Event.commit :: (mid ++ [Event.commit]) ∧
      (∀ ev ∈ pre, ∃ mn, ev = Event.stageMin mn) ∧
      (∀ ev ∈ mid, (∃ t, ev = Event.buildTs t) ∨ (∃ t, ev = Event.stageTs t)) := by
  obtain ⟨s1, s4, h1, h2, rfl⟩ :=
    runScript_ok_decomp nat minData minCoords tsData tsCoords r h
  obtain ⟨_, _, _, ⟨tail1, htr1, htail1⟩⟩ :=
    minFold_shape nat minCoords minData _ s1 none h1
  obtain ⟨_, _, _, ⟨tail2, htr2, htail2⟩⟩ :=
    tsFold_shape nat tsCoords tsData _ s4 none h2
  refine ⟨tail1, tail2, ?_, htail1, htail2⟩
  show s4.trace ++ [Event.commit] =
    tail1 ++ Event.commit :: (tail2 ++ [Event.commit])
  have htr1n : s1.trace = tail1 := by simpa using htr1
  have htr2n : s4.trace = (s1.trace ++ [Event.commit]) ++ tail2 := htr2
  rw [htr2n, htr1n]
  simp [List.append_assoc]

/-- Witness for the C2 theorem at the demonstration input. -/
theorem minima_records_and_index_witness :
    ((∀ l ∈ demoMinData, validMinLine l = true) ∧
     (∀ j, j < 2 * demoMinData.length →
        goodCoordLine (readLine demoMinCoords j) = true) ∧
     (∀ l ∈ demoTsData, validTsLine demoMinData.length l = true) ∧
     (∀ j, j < 2 * demoTsData.length →
        goodCoordLine (readLine demoTsCoords j) = true)) ∧
    ∃ r, runScript 2 demoMinData demoMinCoords demoTsData demoTsCoords
        = (r, none) ∧
      r.stagedMin.length = demoMinData.length ∧
      ∀ i, i < demoMinData.length →
        r.minima.lookup (1 + (i : ℤ)) = some (r.stagedMin.getD i default) ∧
        pyFloat? ((demoMinData.getD i []).headD "") =
          some ((r.stagedMin.getD i default).energy) ∧
        (r.stagedMin.getD i default).coords.length = 3 * 2 :=
  ⟨⟨by decide, by decide, by decide, by decide⟩,
    minima_records_and_index 2 demoMinData demoMinCoords demoTsData
      demoTsCoords (by decide) (by decide) (by decide) (by decide)⟩

/-- Witness for the C3 theorem at the demonstration input. -/
theorem ts_record_count_witness :
    ((∀ l ∈ demoMinData, validMinLine l = true) ∧
     (∀ j, j < 2 * demoMinData.length →
        goodCoordLine (readLine demoMinCoords j) = true) ∧
     (∀ l ∈ demoTsData, validTsLine demoMinData.length l = true) ∧
     (∀ j, j < 2 * demoTsData.length →
        goodCoordLine (readLine demoTsCoords j) = true)) ∧
    ∃ r, runScript 2 demoMinData demoMinCoords demoTsData demoTsCoords
        = (r, none) ∧
      r.stagedTs.length = demoTsData.length :=
  ⟨⟨by decide, by decide, by decide, by decide⟩,
    ts_record_count 2 demoMinData demoMinCoords demoTsData demoTsCoords
      (by decide) (by decide) (by decide) (by decide)⟩

/-- Witness for the C4 theorem at the demonstration run. -/
theorem driver_commits_twice_witness :
    runScript 2 demoMinData demoMinCoords demoTsData demoTsCoords
      = (demoRun, none) ∧
    ∃ pre mid,
      demoRun.trace = pre ++ Event.commit :: (mid ++ [Event.commit]) ∧
      (∀ ev ∈ pre, ∃ mn, ev = Event.stageMin mn) ∧
      (∀ ev ∈ mid, (∃ t, ev = Event.buildTs t) ∨ (∃ t, ev = Event.stageTs t)) :=
  ⟨by decide,
    driver_commits_twice 2 demoMinData demoMinCoords demoTsData demoTsCoords
      demoRun (by decide)⟩

/-- C5: building a TransitionState from a parseable transition-state line
fails with the KeyError (the Python LookupError for an unknown minimum
ordinal) whenever either the source or the destination ordinal is absent
from the minima index; the raised key is one of the two absent ordinals. -/
theorem build_ts_unknown_ordinal (m : List (ℤ × Minimum)) (cs : List ℚ)
    (e f p m1s m2s x y z : String) (v : ℚ) (k1 k2 : ℤ)
    (hv : pyFloat? e = some v) (h1 : pyInt? m1s = some k1)
    (h2 : pyInt? m2s = some k2)
    (habs : m.lookup k1 = none ∨ m.lookup k2 = none) :
    ∃ k, buildTransitionState m cs [e, f, p, m1s, m2s, x, y, z] =
      .error (.keyError k) ∧ m.lookup k = none ∧ (k = k1 ∨ k = k2) :=
  buildTs_keyErr m cs e f p m1s m2s x y z v k1 k2 hv h1 h2 habs

/-- Witness for the C5 theorem: an index holding only ordinal 1, and a line
whose source ordinal is 3. -/
theorem build_ts_unknown_ordinal_witness :
    (pyFloat? "1" = some 1 ∧ pyInt? "3" = some 3 ∧ pyInt? "1" = some 1 ∧
      ([((1 : ℤ), (⟨0, []⟩ : Minimum))].lookup (3 : ℤ) = none ∨
       [((1 : ℤ), (⟨0, []⟩ : Minimum))].lookup (1 : ℤ) = none)) ∧
    ∃ k, buildTransitionState [((1 : ℤ), (⟨0, []⟩ : Minimum))] []
        ["1", "1", "1", "3", "1", "0", "0", "0"] =
      .error (.keyError k) ∧
      [((1 : ℤ), (⟨0, []⟩ : Minimum))].lookup k = none ∧
      (k = 3 ∨ k = 1) :=
  ⟨⟨by decide, by decide, by decide, Or.inl (by decide)⟩,
    build_ts_unknown_ordinal [((1 : ℤ), (⟨0, []⟩ : Minimum))] []
      "1" "1" "1" "3" "1" "0" "0" "0" 1 3 1 (by decide) (by decide) (by decide)
      (Or.inl (by decide))⟩

/-- Transition-state file for the C6 counterexample: the first line is
valid, the second references ordinal 3 although only two minima exist. -/
def cm6TsData : List Line :=
  [["-5", "1", "1", "1", "2", "0", "0", "0"],
   ["-4", "1", "1", "1", "3", "0", "0", "0"]]

/-- Coordinate file with blocks for both transition-state records. -/
def cm6TsCoords : List Line :=
  [["0", "1", "0"], ["0", "1", "1"], ["0", "2", "0"], ["0", "2", "1"]]

/-- C6 counterexample: the claim says that a run whose transition-state file
references an unknown ordinal fails with the LookupError before any
transition-state record is staged.  Here the offending line is the second
one: the run does fail with the KeyError for ordinal 3, but the transition
state of the first, valid line has already been staged at that point. -/
theorem unknown_ordinal_staged_counterexample :
    (runScript 2 demoMinData demoMinCoords cm6TsData cm6TsCoords).2 =
      some (.keyError 3) ∧
    (runScript 2 demoMinData demoMinCoords cm6TsData
      cm6TsCoords).1.stagedTs.length = 1 :=
  ⟨by decide, by decide⟩

/-- C6 amended: when the transition-state summary file consists of valid
lines followed by a line that references an out-of-range ordinal, the run
fails with the KeyError for one of that line's ordinals at the moment the
line is reached; exactly the transition states of the preceding valid lines
are staged, so the offending record and all later records are never
staged. -/
theorem run_fails_at_unknown_ordinal (nat : ℕ)
    (minData minCoords tsCoords : List Line)
    (pre rest : List Line) (e f p m1s m2s x y z : String)
    (v : ℚ) (k1 k2 : ℤ)
    (hv : ∀ l ∈ minData, validMinLine l = true)
    (hC : ∀ j, j < nat * minData.length →
        goodCoordLine (readLine minCoords j) = true)
    (hvt : ∀ l ∈ pre, validTsLine minData.length l = true)
    (hCt : ∀ j, j < nat * (pre.length + 1) →
        goodCoordLine (readLine tsCoords j) = true)
    (hbe : pyFloat? e = some v) (hb1 : pyInt? m1s = some k1)
    (hb2 : pyInt? m2s = some k2)
    (hout : (k1 < 1 ∨ (minData.length : ℤ) < k1) ∨
            (1 ≤ k1 ∧ k1 ≤ (minData.length : ℤ) ∧
              (k2 < 1 ∨ (minData.length : ℤ) < k2))) :
    ∃ s k, runScript nat minData minCoords
        (pre ++ [e, f, p, m1s, m2s, x, y, z] :: rest) tsCoords
        = (s, some (.keyError k)) ∧
      (k = k1 ∨ k = k2) ∧
      s.stagedTs.length = pre.length := by
  obtain ⟨ms, hfold, hmslen, _⟩ := phase1_ok nat minCoords minData
    ⟨0, 1, [], [], [], []⟩ hv (by
      intro j hj
      simpa using hC j hj)
  have hfold1 : foldSteps (minStep nat minCoords) ⟨0, 1, [], [], [], []⟩
      minData =
      (⟨0 + nat * minData.length, 1 + (minData.length : ℤ), idxFrom 1 ms, ms,
        [], ms.map Event.stageMin⟩, none) := hfold
  have hmul : nat * (pre.length + 1) = nat * pre.length + nat :=
    Nat.mul_succ nat pre.length
  obtain ⟨ts, hfoldP, htslen⟩ := phase2_ok nat minData.length tsCoords pre
    { (⟨0 + nat * minData.length, 1 + (minData.length : ℤ), idxFrom 1 ms, ms,
        [], ms.map Event.stageMin⟩ : RunState) with
        coordPos := 0
        trace := (⟨0 + nat * minData.length, 1 + (minData.length : ℤ),
          idxFrom 1 ms, ms, [], ms.map Event.stageMin⟩ : RunState).trace ++
          [Event.commit] }
    hvt
    (by
      intro k hk1 hk2
      obtain ⟨mn, hmn⟩ := idxFrom_lookup_isSome ms 1 k hk1 (by
        have : ms.length = minData.length := hmslen
        omega)
      exact ⟨mn, hmn⟩)
    (by
      intro j hj
      have hj2 : j < nat * (pre.length + 1) := by omega
      simpa using hCt j hj2)
  have hP : ∃ sP, foldSteps (tsStep nat tsCoords)
      { (⟨0 + nat * minData.length, 1 + (minData.length : ℤ), idxFrom 1 ms,
          ms, [], ms.map Event.stageMin⟩ : RunState) with
          coordPos := 0
          trace := (⟨0 + nat * minData.length, 1 + (minData.length : ℤ),
            idxFrom 1 ms, ms, [], ms.map Event.stageMin⟩ : RunState).trace ++
            [Event.commit] } pre = (sP, none) ∧
      sP.coordPos = nat * pre.length ∧ sP.minima = idxFrom 1 ms ∧
      sP.stagedTs.length = pre.length := by
    refine ⟨_, hfoldP, ?_, rfl, ?_⟩
    · show 0 + nat * pre.length = nat * pre.length
      omega
    · show ts.length = pre.length
      exact htslen
  obtain ⟨sP, hfoldP2, hPc, hPm, hPts⟩ := hP
  obtain ⟨cs, haux, _⟩ := read_coordsAux_ok tsCoords nat (nat * pre.length)
    (by
      intro j hj
      exact hCt (nat * pre.length + j) (by omega))
  obtain ⟨k, hberr, hknone, hkid⟩ := buildTs_keyErr (idxFrom 1 ms) cs
    e f p m1s m2s x y z v k1 k2 hbe hb1 hb2 (by
      rcases hout with hk1out | ⟨hk1a, hk1b, hk2out⟩
      · left
        apply idxFrom_lookup_none
        have : ms.length = minData.length := hmslen
        omega
      · right
        apply idxFrom_lookup_none
        have : ms.length = minData.length := hmslen
        omega)
  have hstep : tsStep nat tsCoords sP [e, f, p, m1s, m2s, x, y, z] =
      (sP, some (.keyError k)) := by
    apply tsStep_err_build nat tsCoords sP _ cs _
    · rw [hPc]
      exact haux
    · rw [hPm]
      exact hberr
  have hfoldFull := foldSteps_stop (tsStep nat tsCoords) pre
    [e, f, p, m1s, m2s, x, y, z] rest _ sP sP (.keyError k) hfoldP2 hstep
  exact ⟨sP, k, runScript_eval_tsErr nat minData minCoords
    (pre ++ [e, f, p, m1s, m2s, x, y, z] :: rest) tsCoords _ sP
    (.keyError k) hfold1 hfoldFull, hkid, hPts⟩

/-- Witness for the amended C6 theorem at the counterexample input: the
offending second line raises the KeyError for ordinal 3 with exactly one
transition state staged. -/
theorem run_fails_at_unknown_ordinal_witness :
    ((∀ l ∈ demoMinData, validMinLine l = true) ∧
     (∀ j, j < 2 * demoMinData.length →
        goodCoordLine (readLine demoMinCoords j) = true) ∧
     (∀ l ∈ [(["-5", "1", "1", "1", "2", "0", "0", "0"] : Line)],
        validTsLine demoMinData.length l = true) ∧
     (∀ j, j < 2 * (1 + 1) → goodCoordLine (readLine cm6TsCoords j) = true) ∧
     pyFloat? "-4" = some (-4) ∧ pyInt? "1" = some 1 ∧ pyInt? "3" = some 3) ∧
    ∃ s k, runScript 2 demoMinData demoMinCoords
        ([(["-5", "1", "1", "1", "2", "0", "0", "0"] : Line)] ++
          ["-4", "1", "1", "1", "3", "0", "0", "0"] :: []) cm6TsCoords
        = (s, some (.keyError k)) ∧
      (k = 1 ∨ k = 3) ∧
      s.stagedTs.length =
        [(["-5", "1", "1", "1", "2", "0", "0", "0"] : Line)].length :=
  ⟨⟨by decide, by decide, by decide, by decide, by decide, by decide,
      by decide⟩,
    run_fails_at_unknown_ordinal 2 demoMinData demoMinCoords cm6TsCoords
      [(["-5", "1", "1", "1", "2", "0", "0", "0"] : Line)] []
      "-4" "1" "1" "1" "3" "0" "0" "0" (-4) 1 3
      (by decide) (by decide) (by decide) (by decide) (by decide) (by decide)
      (by decide)
      (Or.inr ⟨by decide, by decide, Or.inr (by decide)⟩)⟩

/-- C7 counterexample: the claim says the record parser raises a ParseError
whenever any numeric field (energy, frequency, point-group order, ordinals,
inertia components) fails to convert; but a six-field minimum line whose
fields 2 through 6 are not numeric parses successfully, because only the
energy field is ever converted. -/
theorem parser_ignores_nonnumeric_tail_counterexample :
    parseMinLine ["1", "abc", "q", "r", "s", "t"] = .ok 1 := by rfl

/-- C7 amended: the parser fails with the unpack ValueError exactly on a
field count other than 6 (minimum line) or 8 (transition-state line), and a
numeric-conversion failure arises only for the fields the script converts:
the energy field of either line type and the two ordinal fields of a
transition-state line; frequency, point-group order and inertia fields are
never converted, so a six-field minimum line with a numeric energy always
parses. -/
theorem parser_arity_and_converted_fields :
    (∀ l : Line, l.length ≠ 6 →
      parseMinLine l = .error (.unpackError l.length 6)) ∧
    (∀ e f p x y z : String, pyFloat? e = none →
      parseMinLine [e, f, p, x, y, z] = .error (.floatError e)) ∧
    (∀ (e f p x y z : String) (v : ℚ), pyFloat? e = some v →
      parseMinLine [e, f, p, x, y, z] = .ok v) ∧
    (∀ (m : List (ℤ × Minimum)) (cs : List ℚ) (l : Line), l.length ≠ 8 →
      buildTransitionState m cs l = .error (.unpackError l.length 8)) ∧
    (∀ (m : List (ℤ × Minimum)) (cs : List ℚ) (e f p m1s m2s x y z : String),
      pyFloat? e = none →
      buildTransitionState m cs [e, f, p, m1s, m2s, x, y, z] =
        .error (.floatError e)) ∧
    (∀ (m : List (ℤ × Minimum)) (cs : List ℚ) (e f p m1s m2s x y z : String)
        (v : ℚ), pyFloat? e = some v → pyInt? m1s = none →
      buildTransitionState m cs [e, f, p, m1s, m2s, x, y, z] =
        .error (.intError m1s)) ∧
    (∀ (m : List (ℤ × Minimum)) (cs : List ℚ) (e f p m1s m2s x y z : String)
        (v : ℚ) (k1 : ℤ) (mn1 : Minimum), pyFloat? e = some v →
      pyInt? m1s = some k1 → m.lookup k1 = some mn1 → pyInt? m2s = none →
      buildTransitionState m cs [e, f, p, m1s, m2s, x, y, z] =
        .error (.intError m2s)) :=
  ⟨parseMinLine_arity,
   parseMinLine_floatErr,
   parseMinLine_ok,
   buildTs_arity,
   buildTs_floatErr,
   fun m cs e f p m1s m2s x y z v hv h1 =>
     buildTs_intErr1 m cs e f p m1s m2s x y z v hv h1,
   fun m cs e f p m1s m2s x y z v k1 mn1 hv h1 hl1 h2 =>
     buildTs_intErr2 m cs e f p m1s m2s x y z v k1 mn1 hv h1 hl1 h2⟩

/-- Witness for the amended C7 theorem: each failure mode at a concrete
line, and the successful parse of a line with garbage in the unconverted
fields. -/
theorem parser_arity_and_converted_fields_witness :
    ((["1", "1", "1", "1", "1"] : Line).length ≠ 6 ∧
      parseMinLine ["1", "1", "1", "1", "1"] =
        .error (.unpackError (["1", "1", "1", "1", "1"] : Line).length 6)) ∧
    (pyFloat? "oops" = none ∧
      parseMinLine ["oops", "1", "1", "0", "0", "0"] =
        .error (.floatError "oops")) ∧
    (pyFloat? "7" = some 7 ∧
      parseMinLine ["7", "q", "r", "s", "t", "u"] = .ok 7) ∧
    (pyInt? "z" = none ∧
      buildTransitionState [] [] ["7", "1", "1", "z", "1", "0", "0", "0"] =
        .error (.intError "z")) :=
  ⟨⟨by decide, parser_arity_and_converted_fields.1 _ (by decide)⟩,
   ⟨by decide,
     parser_arity_and_converted_fields.2.1 "oops" "1" "1" "0" "0" "0"
       (by decide)⟩,
   ⟨by decide,
     parser_arity_and_converted_fields.2.2.1 "7" "q" "r" "s" "t" "u" 7
       (by decide)⟩,
   ⟨by decide,
     parser_arity_and_converted_fields.2.2.2.2.2.1 [] [] "7" "1" "1" "z" "1"
       "0" "0" "0" 7 (by decide) (by decide)⟩⟩

/-- C8 counterexample: the claim says the coordinate reader fails with a
ParseError whenever a consumed line has fewer than 3 whitespace-delimited
tokens; but a line with exactly one numeric token is accepted, because numpy
broadcasts the single value into all three slots of the slice. -/
theorem single_token_line_broadcasts_counterexample :
    read_coords 1 [["5"]] 0 = .ok ([5, 5, 5], 1) := by rfl

/-- C8 amended: on success the coordinate reader consumes exactly `nat`
lines and returns a flat vector of length `3 * nat`; it fails with the numpy
broadcast ValueError when the first offending line has a token count other
than 1 or 3 (a single numeric token is broadcast, not rejected), and with
the float ValueError when a consumed line contains a token `float()`
rejects. -/
theorem read_coords_contract :
    (∀ (nat : ℕ) (lines : List Line) (pos : ℕ) (cs : List ℚ) (p : ℕ),
      read_coords nat lines pos = .ok (cs, p) →
      cs.length = 3 * nat ∧ p = pos + nat) ∧
    (∀ (nat : ℕ) (lines : List Line) (pos i : ℕ), i < nat →
      (∀ j, j < i → goodCoordLine (readLine lines (pos + j)) = true) →
      (∀ t ∈ readLine lines (pos + i), isNumTok t = true) →
      (readLine lines (pos + i)).length ≠ 1 →
      (readLine lines (pos + i)).length ≠ 3 →
      read_coords nat lines pos =
        .error (.broadcastMismatch (pos + i)
          (readLine lines (pos + i)).length)) ∧
    (∀ (nat : ℕ) (lines : List Line) (pos i : ℕ) (good rest : List String)
        (bad : String), i < nat →
      (∀ j, j < i → goodCoordLine (readLine lines (pos + j)) = true) →
      readLine lines (pos + i) = good ++ bad :: rest →
      (∀ t ∈ good, isNumTok t = true) → isNumTok bad = false →
      read_coords nat lines pos = .error (.floatError bad)) := by
  refine ⟨?_, ?_, ?_⟩
  · intro nat lines pos cs p h
    unfold read_coords at h
    cases haux : read_coordsAux lines pos nat with
    | error e =>
        rw [haux] at h
        simp only [Except.map] at h
        cases h
    | ok cs2 =>
        rw [haux] at h
        simp only [Except.map] at h
        injection h with h
        injection h with hcs hp
        subst hcs
        subst hp
        exact ⟨read_coordsAux_length lines nat pos cs2 haux, rfl⟩
  · intro nat lines pos i hi hgood hnum h1 h3
    obtain ⟨vs, hvs, hvslen⟩ := floatList_ok (readLine lines (pos + i)) hnum
    have haux := read_coordsAux_fail_at lines
      (.broadcastMismatch (pos + i) (readLine lines (pos + i)).length)
      nat pos i hi hgood (by
        simp only [hvs]
        have hb := broadcast3_err (pos + i) vs (by omega) (by omega)
        rw [hb, hvslen])
    unfold read_coords
    rw [haux]
    rfl
  · intro nat lines pos i good rest bad hi hgood hline hgoodtok hbad
    have hfl : floatList (readLine lines (pos + i)) =
        .error (.floatError bad) := by
      rw [hline]
      exact floatList_err good bad rest hgoodtok hbad
    have haux := read_coordsAux_fail_at lines (.floatError bad) nat pos i hi
      hgood (by simp only [hfl])
    unfold read_coords
    rw [haux]
    rfl

/-- Witness for the amended C8 theorem: a successful read of two blocks, a
two-token line rejected by the broadcast, and a line with a non-numeric
token rejected by the conversion. -/
theorem read_coords_contract_witness :
    (read_coords 2 demoMinCoords 0 = .ok ([0, 0, 0, 0, 0, 1], 0 + 2) ∧
      ([(0 : ℚ), 0, 0, 0, 0, 1].length = 3 * 2 ∧ (0 + 2 : ℕ) = 0 + 2)) ∧
    ((∀ t ∈ readLine [[("1" : String), "2"]] (0 + 0), isNumTok t = true) ∧
      read_coords 1 [[("1" : String), "2"]] 0 =
        .error (.broadcastMismatch (0 + 0)
          (readLine [[("1" : String), "2"]] (0 + 0)).length)) ∧
    (isNumTok "oops" = false ∧
      read_coords 1 [[("7" : String), "oops", "9"]] 0 =
        .error (.floatError "oops")) :=
  ⟨⟨by rfl, read_coords_contract.1 2 demoMinCoords 0 [0, 0, 0, 0, 0, 1]
      (0 + 2) (by rfl)⟩,
   ⟨by decide, read_coords_contract.2.1 1 [["1", "2"]] 0 0 (by decide)
      (fun j hj => absurd hj (by omega)) (by decide) (by decide) (by decide)⟩,
   ⟨by decide, read_coords_contract.2.2 1 [["7", "oops", "9"]] 0 0 ["7"] ["9"]
      "oops" (by decide) (fun j hj => absurd hj (by omega)) (by rfl)
      (by decide) (by decide)⟩⟩

theorem good_of_all (lines : List Line)
    (hall : ∀ l ∈ lines, goodCoordLine l = true) (j : ℕ)
    (hj : j < lines.length) : goodCoordLine (readLine lines j) = true := by
  unfold readLine
  rw [List.getD_eq_getElem lines [] hj]
  exact hall _ (List.getElem_mem hj)

theorem short_min_coords_run (nat : ℕ)
    (minData minCoords tsData tsCoords : List Line) (r : ℕ)
    (hv : ∀ l ∈ minData, validMinLine l = true)
    (hall : ∀ l ∈ minCoords, goodCoordLine l = true)
    (hr : r < minData.length)
    (hle : nat * r ≤ minCoords.length)
    (hlt : minCoords.length < nat * (r + 1)) :
    ∃ s, runScript nat minData minCoords tsData tsCoords =
        (s, some (.broadcastMismatch minCoords.length 0)) ∧
      streamExhaustedAt minCoords.length
        (.broadcastMismatch minCoords.length 0) ∧
      s.stagedMin.length = r ∧ s.stagedTs = [] := by
  have hrle : r ≤ minData.length := le_of_lt hr
  have hP : ∃ sP, foldSteps (minStep nat minCoords) ⟨0, 1, [], [], [], []⟩
      (minData.take r) = (sP, none) ∧
      sP.coordPos = nat * r ∧ sP.stagedMin.length = r ∧ sP.stagedTs = [] := by
    obtain ⟨ms, hfold, hmslen, _⟩ := phase1_ok nat minCoords (minData.take r)
      ⟨0, 1, [], [], [], []⟩
      (fun l hl => hv l (List.take_subset r minData hl))
      (by
        intro j hj
        rw [List.length_take] at hj
        have hjL : j < minCoords.length := by
          have : min r minData.length = r := by omega
          rw [this] at hj
          omega
        show goodCoordLine (readLine minCoords (0 + j)) = true
        rw [Nat.zero_add]
        exact good_of_all minCoords hall j hjL)
    refine ⟨_, hfold, ?_, ?_, rfl⟩
    · show 0 + nat * (minData.take r).length = nat * r
      rw [List.length_take]
      have : min r minData.length = r := by omega
      rw [this]
      omega
    · show ms.length = r
      rw [hmslen, List.length_take]
      omega
  obtain ⟨sP, hfoldP, hPc, hPlen, hPts⟩ := hP
  have hmul : nat * (r + 1) = nat * r + nat := Nat.mul_succ nat r
  have haux : read_coordsAux minCoords (nat * r) nat =
      .error (.broadcastMismatch minCoords.length 0) :=
    read_coordsAux_exhaust minCoords nat (nat * r)
      (fun j _ hj2 => good_of_all minCoords hall j hj2) hle (by omega)
  have hstep : minStep nat minCoords sP minData[r] =
      (sP, some (.broadcastMismatch minCoords.length 0)) := by
    apply minStep_err_read
    rw [hPc]
    exact haux
  have hfoldFull := foldSteps_stop (minStep nat minCoords) (minData.take r)
    minData[r] (minData.drop (r + 1)) ⟨0, 1, [], [], [], []⟩ sP sP
    (.broadcastMismatch minCoords.length 0) hfoldP hstep
  have hsplit : minData.take r ++ minData[r] :: minData.drop (r + 1) =
      minData := by
    rw [← List.drop_eq_getElem_cons hr]
    exact List.take_append_drop r minData
  rw [hsplit] at hfoldFull
  exact ⟨sP, runScript_eval_minErr nat minData minCoords tsData tsCoords sP
    (.broadcastMismatch minCoords.length 0) hfoldFull,
    ⟨le_rfl, rfl⟩, hPlen, hPts⟩

theorem short_ts_coords_run (nat : ℕ)
    (minData minCoords tsData tsCoords : List Line) (r : ℕ)
    (hv : ∀ l ∈ minData, validMinLine l = true)
    (hC : ∀ j, j < nat * minData.length →
        goodCoordLine (readLine minCoords j) = true)
    (hvt : ∀ l ∈ tsData, validTsLine minData.length l = true)
    (hallt : ∀ l ∈ tsCoords, goodCoordLine l = true)
    (hr : r < tsData.length)
    (hle : nat * r ≤ tsCoords.length)
    (hlt : tsCoords.length < nat * (r + 1)) :
    ∃ s, runScript nat minData minCoords tsData tsCoords =
        (s, some (.broadcastMismatch tsCoords.length 0)) ∧
      streamExhaustedAt tsCoords.length
        (.broadcastMismatch tsCoords.length 0) ∧
      s.stagedTs.length = r ∧ s.stagedMin.length = minData.length := by
  obtain ⟨ms, hfold, hmslen, _⟩ := phase1_ok nat minCoords minData
    ⟨0, 1, [], [], [], []⟩ hv (by
      intro j hj
      simpa using hC j hj)
  have hfold1 : foldSteps (minStep nat minCoords) ⟨0, 1, [], [], [], []⟩
      minData =
      (⟨0 + nat * minData.length, 1 + (minData.length : ℤ), idxFrom 1 ms, ms,
        [], ms.map Event.stageMin⟩, none) := hfold
  obtain ⟨ts, hfoldP, htslen⟩ := phase2_ok nat minData.length tsCoords
    (tsData.take r)
    { (⟨0 + nat * minData.length, 1 + (minData.length : ℤ), idxFrom 1 ms, ms,
        [], ms.map Event.stageMin⟩ : RunState) with
        coordPos := 0
        trace := (⟨0 + nat * minData.length, 1 + (minData.length : ℤ),
          idxFrom 1 ms, ms, [], ms.map Event.stageMin⟩ : RunState).trace ++
          [Event.commit] }
    (fun l hl => hvt l (List.take_subset r tsData hl))
    (by
      intro k hk1 hk2
      obtain ⟨mn, hmn⟩ := idxFrom_lookup_isSome ms 1 k hk1 (by
        have : ms.length = minData.length := hmslen
        omega)
      exact ⟨mn, hmn⟩)
    (by
      intro j hj
      rw [List.length_take] at hj
      have hjL : j < tsCoords.length := by
        have hminr : min r tsData.length = r := by omega
        rw [hminr] at hj
        omega
      simpa using good_of_all tsCoords hallt j hjL)
  have hP : ∃ sP, foldSteps (tsStep nat tsCoords)
      { (⟨0 + nat * minData.length, 1 + (minData.length : ℤ), idxFrom 1 ms,
          ms, [], ms.map Event.stageMin⟩ : RunState) with
          coordPos := 0
          trace := (⟨0 + nat * minData.length, 1 + (minData.length : ℤ),
            idxFrom 1 ms, ms, [], ms.map Event.stageMin⟩ : RunState).trace ++
            [Event.commit] } (tsData.take r) = (sP, none) ∧
      sP.coordPos = nat * r ∧ sP.stagedTs.length = r ∧
      sP.stagedMin.length = minData.length := by
    refine ⟨_, hfoldP, ?_, ?_, ?_⟩
    · show 0 + nat * (tsData.take r).length = nat * r
      rw [List.length_take]
      have hminr : min r tsData.length = r := by omega
      rw [hminr]
      omega
    · show ts.length = r
      rw [htslen, List.length_take]
      omega
    · show ms.length = minData.length
      exact hmslen
  obtain ⟨sP, hfoldP2, hPc, hPts, hPsm⟩ := hP
  have hmul : nat * (r + 1) = nat * r + nat := Nat.mul_succ nat r
  have haux : read_coordsAux tsCoords (nat * r) nat =
      .error (.broadcastMismatch tsCoords.length 0) :=
    read_coordsAux_exhaust tsCoords nat (nat * r)
      (fun j _ hj2 => good_of_all tsCoords hallt j hj2) hle (by omega)
  have hstep : tsStep nat tsCoords sP tsData[r] =
      (sP, some (.broadcastMismatch tsCoords.length 0)) := by
    apply tsStep_err_read
    rw [hPc]
    exact haux
  have hfoldFull := foldSteps_stop (tsStep nat tsCoords) (tsData.take r)
    tsData[r] (tsData.drop (r + 1)) _ sP sP
    (.broadcastMismatch tsCoords.length 0) hfoldP2 hstep
  have hsplit : tsData.take r ++ tsData[r] :: tsData.drop (r + 1) =
      tsData := by
    rw [← List.drop_eq_getElem_cons hr]
    exact List.take_append_drop r tsData
  rw [hsplit] at hfoldFull
  exact ⟨sP, runScript_eval_tsErr nat minData minCoords tsData tsCoords _ sP
    (.broadcastMismatch tsCoords.length 0) hfold1 hfoldFull,
    ⟨le_rfl, rfl⟩, hPts, hPsm⟩

/-- C9: when a coordinate file holds fewer lines than the atom count times
the number of summary lines (its lines being well formed, as are the
summary lines), the run aborts on the record whose coordinate block runs out
of input: the error is the stream-exhausted failure raised at the
end-of-file position, exactly the records before that one are staged, and no
later record is processed.  The first conjunct treats a short minima
coordinate file, the second a short transition-state coordinate file. -/
theorem short_coordinate_file_aborts :
    (∀ (nat : ℕ) (minData minCoords tsData tsCoords : List Line) (r : ℕ),
      (∀ l ∈ minData, validMinLine l = true) →
      (∀ l ∈ minCoords, goodCoordLine l = true) →
      r < minData.length → nat * r ≤ minCoords.length →
      minCoords.length < nat * (r + 1) →
      ∃ s, runScript nat minData minCoords tsData tsCoords =
          (s, some (.broadcastMismatch minCoords.length 0)) ∧
        streamExhaustedAt minCoords.length
          (.broadcastMismatch minCoords.length 0) ∧
        s.stagedMin.length = r ∧ s.stagedTs = []) ∧
    (∀ (nat : ℕ) (minData minCoords tsData tsCoords : List Line) (r : ℕ),
      (∀ l ∈ minData, validMinLine l = true) →
      (∀ j, j < nat * minData.length →
          goodCoordLine (readLine minCoords j) = true) →
      (∀ l ∈ tsData, validTsLine minData.length l = true) →
      (∀ l ∈ tsCoords, goodCoordLine l = true) →
      r < tsData.length → nat * r ≤ tsCoords.length →
      tsCoords.length < nat * (r + 1) →
      ∃ s, runScript nat minData minCoords tsData tsCoords =
          (s, some (.broadcastMismatch tsCoords.length 0)) ∧
        streamExhaustedAt tsCoords.length
          (.broadcastMismatch tsCoords.length 0) ∧
        s.stagedTs.length = r ∧ s.stagedMin.length = minData.length) :=
  ⟨short_min_coords_run, short_ts_coords_run⟩

/-- Witness for the C9 theorem: a one-line minima coordinate file for two
minima at atom count 2 aborts on the first record with nothing staged; a
one-line transition-state coordinate file aborts on the first transition
state with both minima staged. -/
theorem short_coordinate_file_aborts_witness :
    ((∀ l ∈ demoMinData, validMinLine l = true) ∧
     (∀ l ∈ [[("0" : String), "0", "0"]], goodCoordLine l = true) ∧
     (0 : ℕ) < demoMinData.length ∧
     (∃ s, runScript 2 demoMinData [[("0" : String), "0", "0"]] demoTsData
         demoTsCoords =
         (s, some (.broadcastMismatch
           ([[("0" : String), "0", "0"]] : List Line).length 0)) ∧
       streamExhaustedAt ([[("0" : String), "0", "0"]] : List Line).length
         (.broadcastMismatch ([[("0" : String), "0", "0"]] : List Line).length
           0) ∧
       s.stagedMin.length = 0 ∧ s.stagedTs = [])) ∧
    ((∀ l ∈ [[("0" : String), "1", "0"]], goodCoordLine l = true) ∧
     (0 : ℕ) < demoTsData.length ∧
     ∃ s, runScript 2 demoMinData demoMinCoords demoTsData
         [[("0" : String), "1", "0"]] =
         (s, some (.broadcastMismatch
           ([[("0" : String), "1", "0"]] : List Line).length 0)) ∧
       streamExhaustedAt ([[("0" : String), "1", "0"]] : List Line).length
         (.broadcastMismatch ([[("0" : String), "1", "0"]] : List Line).length
           0) ∧
       s.stagedTs.length = 0 ∧ s.stagedMin.length = demoMinData.length) :=
  ⟨⟨by decide, by decide, by decide,
    short_coordinate_file_aborts.1 2 demoMinData [["0", "0", "0"]] demoTsData
      demoTsCoords 0 (by decide) (by decide) (by decide) (by decide)
      (by decide)⟩,
   ⟨by decide, by decide,
    short_coordinate_file_aborts.2 2 demoMinData demoMinCoords demoTsData
      [["0", "1", "0"]] 0 (by decide) (by decide) (by decide) (by decide)
      (by decide) (by decide) (by decide)⟩⟩

/-- C10: a minimum summary line with exactly six fields parses and the
record is built and staged whenever the energy converts, regardless of the
content of fields 2 through 6: only the first field is converted, and the
staged Minimum's energy equals the parsed value of that first field (its
coordinates being the block just read). -/
theorem min_line_only_energy_converted (nat : ℕ) (coords : List Line)
    (s : RunState) (e f p x y z : String) (v : ℚ) (cs : List ℚ)
    (haux : read_coordsAux coords s.coordPos nat = .ok cs)
    (hv : pyFloat? e = some v) :
    parseMinLine [e, f, p, x, y, z] = .ok v ∧
    minStep nat coords s [e, f, p, x, y, z] =
      ({ s with
          coordPos := s.coordPos + nat
          mini := s.mini + 1
          minima := s.minima ++ [(s.mini, ⟨v, cs⟩)]
          stagedMin := s.stagedMin ++ [⟨v, cs⟩]
          trace := s.trace ++ [.stageMin ⟨v, cs⟩] }, none) :=
  ⟨parseMinLine_ok e f p x y z v hv,
   minStep_ok nat coords s e f p x y z v cs haux hv⟩

/-- Witness for the C10 theorem: a line whose fields 2 through 6 are not
numeric still builds a Minimum carrying the parsed energy. -/
theorem min_line_only_energy_converted_witness :
    (read_coordsAux [[("0" : String), "0", "0"]]
        (⟨0, 1, [], [], [], []⟩ : RunState).coordPos 1 = .ok [0, 0, 0] ∧
      pyFloat? "-7" = some (-7)) ∧
    (parseMinLine ["-7", "aa", "bb", "cc", "dd", "ee"] = .ok (-7) ∧
      minStep 1 [[("0" : String), "0", "0"]] ⟨0, 1, [], [], [], []⟩
          ["-7", "aa", "bb", "cc", "dd", "ee"] =
        ({ (⟨0, 1, [], [], [], []⟩ : RunState) with
            coordPos := (⟨0, 1, [], [], [], []⟩ : RunState).coordPos + 1
            mini := (⟨0, 1, [], [], [], []⟩ : RunState).mini + 1
            minima := (⟨0, 1, [], [], [], []⟩ : RunState).minima ++
              [((⟨0, 1, [], [], [], []⟩ : RunState).mini, ⟨-7, [0, 0, 0]⟩)]
            stagedMin := (⟨0, 1, [], [], [], []⟩ : RunState).stagedMin ++
              [⟨-7, [0, 0, 0]⟩]
            trace := (⟨0, 1, [], [], [], []⟩ : RunState).trace ++
              [.stageMin ⟨-7, [0, 0, 0]⟩] }, none)) :=
  ⟨⟨by rfl, by decide⟩,
    min_line_only_energy_converted 1 [["0", "0", "0"]] ⟨0, 1, [], [], [], []⟩
      "-7" "aa" "bb" "cc" "dd" "ee" (-7) [0, 0, 0] (by rfl) (by decide)⟩
